import Mathlib

/-!
# M25P16 SPI flash driver (SPIFlash.h / SPIFlash.cpp)

A shallow embedding of the Arduino driver for the M25P16 serial NOR flash.
The driver talks to the outside world through two primitives only,
`digitalWrite` on the chip-select pin and `SPI.transfer`; both are modelled
as steps on an explicit hardware state that logs every bus event and lets an
arbitrary device answer every exchanged byte.
-/

namespace M25P16

/-! ## Hardware model -/

/-- Arduino logic level LOW. -/
abbrev LOW : Bool := false

/-- Arduino logic level HIGH. -/
abbrev HIGH : Bool := true

/-- One observable bus event: a level written to a digital pin, or one
full-duplex byte exchange (`out` is the byte driven by the master, `inp`
the byte returned by the device during the same eight clocks). -/
inductive Event where
  | pin (p : Nat) (level : Bool)
  | xfer (out inp : Nat)
  deriving DecidableEq, Repr

/-- Configuration calls made on the Arduino core; they put nothing on the bus. -/
inductive Setup where
  | pinModeOutput (p : Nat)
  | spiBegin
  | setBitOrderMSBFIRST
  | setDataModeMODE0
  | setClockDividerDIV2
  deriving DecidableEq, Repr

/-- The device on the other end of the bus: it observes every pin write and
answers every byte clocked to it. A fixed response stream is the special
case `streamDevice`. -/
structure Device (σ : Type) where
  onPin : σ → Nat → Bool → σ
  onByte : σ → Nat → Nat × σ

/-- Hardware state: the device, the level last written to each pin, the
configuration calls made so far, and the log of bus events, oldest first. -/
structure Hw (σ : Type) where
  dev : σ
  level : Nat → Bool
  setup : List Setup
  trace : List Event

/-- A device that ignores what it is sent and returns the bytes of a fixed
stream, one per exchange; its state is the number of bytes returned so far. -/
def streamDevice (s : Nat → Nat) : Device Nat where
  onPin := fun k _ _ => k
  onByte := fun k _ => (s k, k + 1)

/-- Power-on hardware state around a device state: nothing written, nothing logged. -/
def Hw.boot {σ : Type} (d : σ) : Hw σ :=
  { dev := d, level := fun _ => false, setup := [], trace := [] }

/-- Arduino `pinMode(pin, OUTPUT)`. -/
def pinModeOutput {σ : Type} (p : Nat) (h : Hw σ) : Hw σ :=
  { h with setup := h.setup ++ [Setup.pinModeOutput p] }

/-- Arduino `digitalWrite(pin, level)`. -/
def digitalWrite {σ : Type} (D : Device σ) (p : Nat) (lvl : Bool) (h : Hw σ) : Hw σ :=
  { h with
    dev := D.onPin h.dev p lvl
    level := fun q => if q = p then lvl else h.level q
    trace := h.trace ++ [Event.pin p lvl] }

/-- Arduino `SPI.begin()`. -/
def SPI.begin {σ : Type} (h : Hw σ) : Hw σ :=
  { h with setup := h.setup ++ [Setup.spiBegin] }

/-- Arduino `SPI.setBitOrder(MSBFIRST)`. -/
def SPI.setBitOrder {σ : Type} (h : Hw σ) : Hw σ :=
  { h with setup := h.setup ++ [Setup.setBitOrderMSBFIRST] }

/-- Arduino `SPI.setDataMode(SPI_MODE0)`. -/
def SPI.setDataMode {σ : Type} (h : Hw σ) : Hw σ :=
  { h with setup := h.setup ++ [Setup.setDataModeMODE0] }

/-- Arduino `SPI.setClockDivider(SPI_CLOCK_DIV2)`. -/
def SPI.setClockDivider {σ : Type} (h : Hw σ) : Hw σ :=
  { h with setup := h.setup ++ [Setup.setClockDividerDIV2] }

/-- Arduino `uint8_t SPI.transfer(uint8_t)`: the argument is converted to
`uint8_t` (so an `uint32_t` expression such as `addr >> 16` keeps its low
eight bits), the device answers, and the answer is returned as a byte. -/
def SPI.transfer {σ : Type} (D : Device σ) (b : Nat) (h : Hw σ) : Nat × Hw σ :=
  let r := D.onByte h.dev (b % 256)
  (r.1 % 256,
    { h with dev := r.2, trace := h.trace ++ [Event.xfer (b % 256) (r.1 % 256)] })

/-! ## SPIFlash.h -/

def SPI_WRITE_ENABLE : Nat := 0x06
def SPI_WRITE_DISABLE : Nat := 0x04
def SPI_SECTOR_ERASE : Nat := 0xD8
def SPIFLASH_CHIPERASE : Nat := 0x60
def SPI_READ_STATUS_REGISTER : Nat := 0x05
def SPI_WRITE_STATUS_REGISTER : Nat := 0x01
def SPIFLASH_ARRAYREAD : Nat := 0x0B
def SPI_READ_DATA_BYTES : Nat := 0x03
def SPI_BULK_ERASE : Nat := 0xC7
def SPI_DEEP_POWER_DOWN : Nat := 0xB9
def SPI_RELEASE_FROM_DEEP_POWER_DOWN : Nat := 0xAB
def SPI_PAGE_PROGRAM : Nat := 0x02
def SPI_READ_IDENTIFICATION : Nat := 0x9F
def SPIFLASH_MACREAD : Nat := 0x4B

def flash_PAGE_COUNT : Nat := 8192
def flash_PAGE_BYTE_SIZE : Nat := 256
def flash_SECTOR_COUNT : Nat := 32
def flash_SECTOR_BYTE_SIZE : Nat := 65536

/-- Macro `FLASH_SREG_WRITE_PROTECT(SREG)`, that is `((SREG) & (1 << 7))`. -/
def FLASH_SREG_WRITE_PROTECT (SREG : Nat) : Nat := SREG &&& (1 <<< 7)

/-- Macro `FLASH_SREG_BLOCK_PROTECT_BP2(SREG)`, that is `((SREG) & (1 << 4))`. -/
def FLASH_SREG_BLOCK_PROTECT_BP2 (SREG : Nat) : Nat := SREG &&& (1 <<< 4)

/-- Macro `FLASH_SREG_BLOCK_PROTECT_BP1(SREG)`, that is `((SREG) & (1 << 3))`. -/
def FLASH_SREG_BLOCK_PROTECT_BP1 (SREG : Nat) : Nat := SREG &&& (1 <<< 3)

/-- Macro `FLASH_SREG_BLOCK_PROTECT_BP0(SREG)`, that is `((SREG) & (1 << 2))`. -/
def FLASH_SREG_BLOCK_PROTECT_BP0 (SREG : Nat) : Nat := SREG &&& (1 <<< 2)

/-- Macro `FLASH_SREG_WRITE_ENABLE_LATCH(SREG)`, that is `((SREG) & (1 << 1))`. -/
def FLASH_SREG_WRITE_ENABLE_LATCH (SREG : Nat) : Nat := SREG &&& (1 <<< 1)

/-- Macro `FLASH_SREG_WRITE_IN_PROGRESS(SREG)`, that is `((SREG) & (1 << 0))`. -/
def FLASH_SREG_WRITE_IN_PROGRESS (SREG : Nat) : Nat := SREG &&& (1 <<< 0)

/-- The `struct flash_identification`. The member `cfd_content` is declared
`uint8_t cfd_content[16]` and is the last member of the struct; it is
modelled as the bytes found at `cfd_content + i` for every offset `i`, so
that a store through an index of 16 or more (which the C code does not
exclude) stays visible instead of being dropped. -/
structure flash_identification where
  manufacturer : Nat
  memory_type : Nat
  memory_capacity : Nat
  cfd_length : Nat
  cfd_content : Nat → Nat

/-- Declared capacity of `cfd_content`. -/
def cfd_capacity : Nat := 16

/-- The data members of `class SPIFlash` that the code uses. -/
structure SPIFlash where
  _cspin : Nat
  deriving DecidableEq, Repr

/-- Macro `SPI_ASSERT()`, that is `digitalWrite(_cspin, LOW);`. -/
def SPI_ASSERT {σ : Type} (D : Device σ) (f : SPIFlash) (h : Hw σ) : Hw σ :=
  digitalWrite D f._cspin LOW h

/-- Macro `SPI_DEASSERT()`, that is `digitalWrite(_cspin, HIGH);`. -/
def SPI_DEASSERT {σ : Type} (D : Device σ) (f : SPIFlash) (h : Hw σ) : Hw σ :=
  digitalWrite D f._cspin HIGH h

/-! ## SPIFlash.cpp -/

/-- Method `SPIFlash::SPIset`. -/
def SPIset {σ : Type} (h : Hw σ) : Hw σ :=
  SPI.setClockDivider (SPI.setDataMode (SPI.setBitOrder h))

/-- Constructor `SPIFlash::SPIFlash(uint8_t cspin)`. -/
def SPIFlash.new {σ : Type} (D : Device σ) (cspin : Nat) (h : Hw σ) : SPIFlash × Hw σ :=
  let f : SPIFlash := { _cspin := cspin }
  let h := pinModeOutput f._cspin h
  let h := digitalWrite D f._cspin HIGH h
  let h := SPI.begin h
  let h := SPIset h
  let h := digitalWrite D f._cspin LOW h
  let h := (SPI.transfer D SPI_WRITE_ENABLE h).2
  let h := digitalWrite D f._cspin HIGH h
  (f, h)

/-- Method `SPIFlash::flash_write_enable`. -/
def flash_write_enable {σ : Type} (D : Device σ) (f : SPIFlash) (h : Hw σ) : Hw σ :=
  let h := SPI_ASSERT D f h
  let h := (SPI.transfer D SPI_WRITE_ENABLE h).2
  SPI_DEASSERT D f h

/-- Method `SPIFlash::flash_write_disable`. -/
def flash_write_disable {σ : Type} (D : Device σ) (f : SPIFlash) (h : Hw σ) : Hw σ :=
  let h := SPI_ASSERT D f h
  let h := (SPI.transfer D SPI_WRITE_DISABLE h).2
  SPI_DEASSERT D f h

/-- The loop `for (i = 0; i < p->cfd_length; i++) p->cfd_content[i] = SPI.transfer(0);`
of `flash_read_identification`, entered at index `i` with `n` iterations
left (`n` is `p->cfd_length - i`; the body does not change `cfd_length`). -/
def flash_read_identification.loop {σ : Type} (D : Device σ) :
    Nat → Nat → flash_identification → Hw σ → flash_identification × Hw σ
  | 0, _, p, h => (p, h)
  | n + 1, i, p, h =>
    let r := SPI.transfer D 0 h
    flash_read_identification.loop D n (i + 1)
      { p with cfd_content := fun j => if j = i then r.1 else p.cfd_content j } r.2

/-- Method `SPIFlash::flash_read_identification`; the record behind the
pointer `p` is passed in and the updated record is returned. -/
def flash_read_identification {σ : Type} (D : Device σ) (f : SPIFlash)
    (p : flash_identification) (h : Hw σ) : flash_identification × Hw σ :=
  let h := SPI_ASSERT D f h
  let h := (SPI.transfer D SPI_READ_IDENTIFICATION h).2
  let r := SPI.transfer D 0 h
  let p := { p with manufacturer := r.1 }
  let r := SPI.transfer D 0 r.2
  let p := { p with memory_type := r.1 }
  let r := SPI.transfer D 0 r.2
  let p := { p with memory_capacity := r.1 }
  let r := SPI.transfer D 0 r.2
  let p := { p with cfd_length := r.1 }
  let r := flash_read_identification.loop D p.cfd_length 0 p r.2
  (r.1, SPI_DEASSERT D f r.2)

/-- Method `SPIFlash::flash_read_status_register`; returns the value stored
to `*sreg`. -/
def flash_read_status_register {σ : Type} (D : Device σ) (f : SPIFlash) (h : Hw σ) :
    Nat × Hw σ :=
  let h := SPI_ASSERT D f h
  let h := (SPI.transfer D SPI_READ_STATUS_REGISTER h).2
  let r := SPI.transfer D 0 h
  (r.1, SPI_DEASSERT D f r.2)

/-- Method `SPIFlash::flash_write_status_register`. -/
def flash_write_status_register {σ : Type} (D : Device σ) (f : SPIFlash) (sreg : Nat)
    (h : Hw σ) : Hw σ :=
  let h := SPI_ASSERT D f h
  let h := (SPI.transfer D SPI_WRITE_STATUS_REGISTER h).2
  let h := (SPI.transfer D sreg h).2
  SPI_DEASSERT D f h

/-- The loop `for (i = 0; i < siz; i++) buf[i] = SPI.transfer(0);` of
`flash_read_data_bytes`, entered at index `i` with `n` iterations left
(`n` is `siz - i`; `i` never wraps because it stays below `siz`). The
buffer is the memory at `buf + j` for every offset `j`. -/
def flash_read_data_bytes.loop {σ : Type} (D : Device σ) :
    Nat → Nat → (Nat → Nat) → Hw σ → (Nat → Nat) × Hw σ
  | 0, _, buf, h => (buf, h)
  | n + 1, i, buf, h =>
    let r := SPI.transfer D 0 h
    flash_read_data_bytes.loop D n (i + 1) (fun j => if j = i then r.1 else buf j) r.2

/-- Method `SPIFlash::flash_read_data_bytes`; the memory behind `buf` is
passed in and the updated memory is returned. -/
def flash_read_data_bytes {σ : Type} (D : Device σ) (f : SPIFlash) (addr : Nat)
    (buf : Nat → Nat) (siz : Nat) (h : Hw σ) : (Nat → Nat) × Hw σ :=
  let h := SPI_ASSERT D f h
  let h := (SPI.transfer D SPI_READ_DATA_BYTES h).2
  let h := (SPI.transfer D (addr >>> 16) h).2
  let h := (SPI.transfer D (addr >>> 8) h).2
  let h := (SPI.transfer D (addr >>> 0) h).2
  let r := flash_read_data_bytes.loop D siz 0 buf h
  (r.1, SPI_DEASSERT D f r.2)

/-- The loop `for (i = 0; i < siz; i++) SPI.transfer(buf[i]);` of
`flash_page_program`, entered at index `i` with `n` iterations left. -/
def flash_page_program.loop {σ : Type} (D : Device σ) (buf : Nat → Nat) :
    Nat → Nat → Hw σ → Hw σ
  | 0, _, h => h
  | n + 1, i, h => flash_page_program.loop D buf n (i + 1) (SPI.transfer D (buf i) h).2

/-- Method `SPIFlash::flash_page_program`. -/
def flash_page_program {σ : Type} (D : Device σ) (f : SPIFlash) (addr : Nat)
    (buf : Nat → Nat) (siz : Nat) (h : Hw σ) : Hw σ :=
  let h := SPI_ASSERT D f h
  let h := (SPI.transfer D SPI_PAGE_PROGRAM h).2
  let h := (SPI.transfer D (addr >>> 16) h).2
  let h := (SPI.transfer D (addr >>> 8) h).2
  let h := (SPI.transfer D (addr >>> 0) h).2
  let h := flash_page_program.loop D buf siz 0 h
  SPI_DEASSERT D f h

/-- Method `SPIFlash::flash_sector_erase`. -/
def flash_sector_erase {σ : Type} (D : Device σ) (f : SPIFlash) (addr : Nat) (h : Hw σ) :
    Hw σ :=
  let h := SPI_ASSERT D f h
  let h := (SPI.transfer D SPI_SECTOR_ERASE h).2
  let h := (SPI.transfer D (addr >>> 16) h).2
  let h := (SPI.transfer D (addr >>> 8) h).2
  let h := (SPI.transfer D (addr >>> 0) h).2
  SPI_DEASSERT D f h

/-- Method `SPIFlash::flash_bulk_erase`. -/
def flash_bulk_erase {σ : Type} (D : Device σ) (f : SPIFlash) (h : Hw σ) : Hw σ :=
  let h := SPI_ASSERT D f h
  let h := (SPI.transfer D SPI_BULK_ERASE h).2
  SPI_DEASSERT D f h

/-- Method `SPIFlash::flash_deep_power_down`. -/
def flash_deep_power_down {σ : Type} (D : Device σ) (f : SPIFlash) (h : Hw σ) : Hw σ :=
  let h := SPI_ASSERT D f h
  let h := (SPI.transfer D SPI_DEEP_POWER_DOWN h).2
  SPI_DEASSERT D f h

/-- Method `SPIFlash::flash_release_from_deep_power_down`. -/
def flash_release_from_deep_power_down {σ : Type} (D : Device σ) (f : SPIFlash)
    (h : Hw σ) : Hw σ :=
  let h := SPI_ASSERT D f h
  let h := (SPI.transfer D SPI_RELEASE_FROM_DEEP_POWER_DOWN h).2
  SPI_DEASSERT D f h

/-! ## Vocabulary for stating properties of bus traces -/

/-- The bus events of one transaction on chip-select pin `cs`: select LOW, one
exchange per byte of `outs` (answered by the byte of `resp` at the same
position), select HIGH. -/
def frame (cs : Nat) (outs resp : List Nat) : List Event :=
  Event.pin cs LOW :: List.zipWith Event.xfer outs resp ++ [Event.pin cs HIGH]

/-- Hardware state `h2` is `h1` followed by exactly one transaction on `cs`
sending `outs` and receiving `resp`; chip-select ends HIGH and nothing else
changed. -/
def Emits {σ : Type} (h1 h2 : Hw σ) (cs : Nat) (outs resp : List Nat) : Prop :=
  resp.length = outs.length ∧
  h2.trace = h1.trace ++ frame cs outs resp ∧
  h2.level cs = HIGH ∧
  (∀ q, q ≠ cs → h2.level q = h1.level q) ∧
  h2.setup = h1.setup

/-- The memory of the caller that the reading commands store into: the
byte behind `sreg`, the bytes behind `buf`, the record behind `p`. -/
structure Caller where
  sreg : Nat
  buf : Nat → Nat
  ident : flash_identification

/-- A call of one of the eleven command methods together with its arguments
(for `page_program` the bytes behind its `buf` argument). -/
inductive Cmd where
  | write_enable
  | write_disable
  | read_identification
  | read_status_register
  | write_status_register (sreg : Nat)
  | read_data_bytes (addr siz : Nat)
  | page_program (addr : Nat) (buf : Nat → Nat) (siz : Nat)
  | sector_erase (addr : Nat)
  | bulk_erase
  | deep_power_down
  | release_from_deep_power_down

/-- Performs the call `c` on the driver object `f`: dispatches to the method
and stores what a reading method returns into the caller's memory. -/
def Cmd.exec {σ : Type} (D : Device σ) (f : SPIFlash) (c : Cmd) (s : Caller × Hw σ) :
    Caller × Hw σ :=
  match c with
  | Cmd.write_enable => (s.1, flash_write_enable D f s.2)
  | Cmd.write_disable => (s.1, flash_write_disable D f s.2)
  | Cmd.read_identification =>
    let r := flash_read_identification D f s.1.ident s.2
    ({ s.1 with ident := r.1 }, r.2)
  | Cmd.read_status_register =>
    let r := flash_read_status_register D f s.2
    ({ s.1 with sreg := r.1 }, r.2)
  | Cmd.write_status_register sreg => (s.1, flash_write_status_register D f sreg s.2)
  | Cmd.read_data_bytes addr siz =>
    let r := flash_read_data_bytes D f addr s.1.buf siz s.2
    ({ s.1 with buf := r.1 }, r.2)
  | Cmd.page_program addr buf siz => (s.1, flash_page_program D f addr buf siz s.2)
  | Cmd.sector_erase addr => (s.1, flash_sector_erase D f addr s.2)
  | Cmd.bulk_erase => (s.1, flash_bulk_erase D f s.2)
  | Cmd.deep_power_down => (s.1, flash_deep_power_down D f s.2)
  | Cmd.release_from_deep_power_down => (s.1, flash_release_from_deep_power_down D f s.2)

/-- Performs a sequence of calls, first to last. -/
def Cmd.run {σ : Type} (D : Device σ) (f : SPIFlash) : List Cmd → Caller × Hw σ → Caller × Hw σ
  | [], s => s
  | c :: cs, s => Cmd.run D f cs (Cmd.exec D f c s)

/-- A whole use of the driver: power on, construct the object on pin `cspin`,
then perform the calls `ops`. -/
def session {σ : Type} (D : Device σ) (d : σ) (cspin : Nat) (m : Caller) (ops : List Cmd) :
    Caller × Hw σ :=
  let r := SPIFlash.new D cspin (Hw.boot d)
  Cmd.run D r.1 ops (m, r.2)

/-- Opcode of each command in the table of the specification (section 6). -/
def Cmd.specOpcode : Cmd → Nat
  | Cmd.write_enable => 0x06
  | Cmd.write_disable => 0x04
  | Cmd.read_status_register => 0x05
  | Cmd.write_status_register _ => 0x01
  | Cmd.read_data_bytes _ _ => 0x03
  | Cmd.page_program _ _ _ => 0x02
  | Cmd.sector_erase _ => 0xD8
  | Cmd.bulk_erase => 0xC7
  | Cmd.deep_power_down => 0xB9
  | Cmd.release_from_deep_power_down => 0xAB
  | Cmd.read_identification => 0x9F

/-- The opcodes of the command frames found in a trace, in order: the byte
sent by the first exchange after each write of LOW to the chip-select pin
`cs`. The flag tells whether the next exchange is such a first exchange. -/
def frameOpcodes (cs : Nat) : Bool → List Event → List Nat
  | _, [] => []
  | b, Event.pin p lvl :: rest => frameOpcodes cs (if p = cs then !lvl else b) rest
  | true, Event.xfer o _ :: rest => o :: frameOpcodes cs false rest
  | false, Event.xfer _ _ :: rest => frameOpcodes cs false rest

/-- The four mutating opcodes: page-program, sector-erase, bulk-erase, write-status. -/
def isMutating (o : Nat) : Bool := o = 0x02 || o = 0xD8 || o = 0xC7 || o = 0x01

/-- The write-enable-before-mutate rule on a sequence of frame opcodes:
`armed` holds when a write-enable frame (0x06) has been seen since the last
mutating frame with no write-disable frame (0x04) after it; every mutating
frame must find `armed` set, and clears it. -/
def welRule : Bool → List Nat → Bool
  | _, [] => true
  | armed, o :: rest =>
    if o = 0x06 then welRule true rest
    else if o = 0x04 then welRule false rest
    else if isMutating o then armed && welRule false rest
    else welRule armed rest

/-- A caller memory holding zeroes. -/
def Caller.zero : Caller :=
  { sreg := 0, buf := fun _ => 0,
    ident := { manufacturer := 0, memory_type := 0, memory_capacity := 0, cfd_length := 0,
               cfd_content := fun _ => 0 } }

/-- The events added by a call begin with the write of LOW to chip-select
`cs`, directly followed by an exchange that sends the byte `opc`. -/
def FirstExchange {σ : Type} (h1 h2 : Hw σ) (cs opc : Nat) : Prop :=
  ∃ inp rest, h2.trace = h1.trace ++ Event.pin cs LOW :: Event.xfer opc inp :: rest

/-- Whether a bus event is a byte exchange (and not a pin write). -/
def Event.isXfer : Event → Bool
  | Event.xfer _ _ => true
  | Event.pin _ _ => false

/-- The bus events of `k` read-status frames in a row on chip-select `cs`,
answered by a response stream `s` read from position `p`: each frame sends
0x05 and 0x00 and takes two bytes of the stream. -/
def statusPollFrames (cs : Nat) (s : Nat → Nat) : Nat → Nat → List Event
  | _, 0 => []
  | p, k + 1 =>
    frame cs [0x05, 0x00] [s p % 256, s (p + 1) % 256] ++ statusPollFrames cs s (p + 2) k

/-! ## A model of the flash device

The device is hardware; the driver's source does not contain it. The model
below follows the specification (sections 3, 4.4, 4.5 and 6) and covers the
part of the protocol that a program-then-read round trip exercises. -/

/-- Modelled from the spec: the state of the flash device, which is not part
of the driver's source. Section 3 gives the address space (`mem`, one byte
per address), the write-enable latch (`wel`) and the activity states Standby,
Busy (`busy`, the WIP bit) and DeepPowerDown; section 7 gives protected
regions (`protect a` tells whether the page starting at `a` is protected by
the block-protect bits). `selected` and `rx` hold the chip-select level and
the bytes clocked in since chip-select went LOW. -/
structure FlashState where
  mem : Nat → Nat
  wel : Bool
  busy : Bool
  deepPowerDown : Bool
  protect : Nat → Bool
  selected : Bool
  rx : List Nat

/-- Modelled from the spec: total capacity, page count times page size (section 3). -/
def flashCapacity : Nat := flash_PAGE_COUNT * flash_PAGE_BYTE_SIZE

/-- Modelled from the spec: the byte address carried by three address bytes,
most significant first (section 4.2), taken within the address space
0 .. capacity - 1 (section 3). -/
def flashAddress (a2 a1 a0 : Nat) : Nat := (a2 * 65536 + a1 * 256 + a0) % flashCapacity

/-- Modelled from the spec: the page-program wrap algorithm of section 4.4.
With `pageStart = a & ~0xFF` and `offsetInPage = a & 0xFF`, data byte number
`j` is stored at `pageStart + (offsetInPage + j) mod 256`: it never leaves
the page, and a later byte overwrites an earlier one at the same place. -/
def programPage (a : Nat) : Nat → List Nat → (Nat → Nat) → (Nat → Nat)
  | _, [], mem => mem
  | j, b :: bs, mem =>
    programPage a (j + 1) bs
      (fun x => if x = (a - a % 256) + (a % 256 + j) % 256 then b else mem x)

/-- Modelled from the spec: the status byte, bit 0 write-in-progress and bit 1
write-enable-latch (section 6); the block-protect bits are not part of this
model and read as 0. -/
def flashStatus (d : FlashState) : Nat :=
  (if d.busy then 1 else 0) + (if d.wel then 2 else 0)

/-- Modelled from the spec: the byte the device returns during an exchange,
given the bytes `rx` received so far in this frame, the current one included
(section 4.4). Read-status (0x05) streams the status byte from the second
exchange on; read-data (0x03) streams memory from the fifth exchange on,
starting at the address sent, incrementing and wrapping to 0 at the top, and
is rejected while a cycle is in progress. Nothing is answered in deep
power-down. Any other exchange returns 0. -/
def flashAnswer (d : FlashState) (rx : List Nat) : Nat :=
  if d.deepPowerDown then 0
  else if rx.head? = some 0x05 ∧ 2 ≤ rx.length then flashStatus d
  else if rx.head? = some 0x03 ∧ 5 ≤ rx.length ∧ d.busy = false then
    d.mem ((flashAddress (rx.getD 1 0) (rx.getD 2 0) (rx.getD 3 0) + (rx.length - 5))
      % flashCapacity)
  else 0

/-- Modelled from the spec: what the device does with the frame `d.rx` when
chip-select returns HIGH (sections 4.4 and 4.5). In deep power-down only
release (0xAB) is accepted; while busy every command is ignored. Otherwise
write-enable (0x06) sets the latch, write-disable (0x04) clears it,
deep-power-down (0xB9) enters that state, and page-program (0x02, three
address bytes, at least one data byte) programs the data with the wrap
algorithm and starts a self-timed cycle, provided the latch is set and the
page is not protected. The commands a program-then-read round trip does not
use (sector-erase, bulk-erase, write-status) are left out of this model and
ignored. -/
def flashExecute (d : FlashState) : FlashState :=
  if d.deepPowerDown then
    (if d.rx = [0xAB] then { d with deepPowerDown := false } else d)
  else if d.busy then d
  else if d.rx = [0x06] then { d with wel := true }
  else if d.rx = [0x04] then { d with wel := false }
  else if d.rx = [0xB9] then { d with deepPowerDown := true }
  else if d.rx.head? = some 0x02 ∧ 5 ≤ d.rx.length ∧ d.wel = true ∧
      d.protect (flashAddress (d.rx.getD 1 0) (d.rx.getD 2 0) (d.rx.getD 3 0) -
        flashAddress (d.rx.getD 1 0) (d.rx.getD 2 0) (d.rx.getD 3 0) % 256) = false then
    { d with
      mem := programPage (flashAddress (d.rx.getD 1 0) (d.rx.getD 2 0) (d.rx.getD 3 0)) 0
        (d.rx.drop 4) d.mem
      busy := true }
  else d

/-- Modelled from the spec: the flash device on chip-select pin `cs`
(section 4.1). Chip-select LOW opens a frame, every exchange adds the byte
sent to the frame and returns the device's answer, chip-select HIGH ends the
frame and has the command executed. -/
def flashDevice (cs : Nat) : Device FlashState where
  onPin := fun d p lvl =>
    if p = cs then
      (if lvl = LOW then { d with selected := true, rx := [] }
       else if d.selected then { flashExecute d with selected := false, rx := [] }
       else d)
    else d
  onByte := fun d b =>
    if d.selected then (flashAnswer d (d.rx ++ [b]), { d with rx := d.rx ++ [b] }) else (0, d)

/-- Modelled from the spec: completion of the self-timed cycle (section
4.5): the device returns to Standby, WIP reads 0 and the latch is cleared. -/
def FlashState.complete (d : FlashState) : FlashState :=
  if d.busy then { d with busy := false, wel := false } else d

/-- The sequence of the round trip: `flash_write_enable`, then
`flash_page_program(addr, B, n)`, then the self-timed cycle of the device
completes, then `flash_read_data_bytes(addr, buf, n)`. -/
def programThenRead (cs addr n : Nat) (B buf : Nat → Nat) (h : Hw FlashState) :
    (Nat → Nat) × Hw FlashState :=
  let f : SPIFlash := { _cspin := cs }
  let h := flash_write_enable (flashDevice cs) f h
  let h := flash_page_program (flashDevice cs) f addr B n h
  let h := { h with dev := h.dev.complete }
  flash_read_data_bytes (flashDevice cs) f addr buf n h

/-- A device in Standby whose memory holds 0xFF everywhere (erased), with no
protected page. -/
def FlashState.erased : FlashState :=
  { mem := fun _ => 0xFF, wel := false, busy := false, deepPowerDown := false,
    protect := fun _ => false, selected := false, rx := [] }

/-! ## The primitives and the three loops -/

section lemmas
variable {σ : Type}

@[simp] theorem digitalWrite_trace (D : Device σ) (p : Nat) (l : Bool) (h : Hw σ) :
    (digitalWrite D p l h).trace = h.trace ++ [Event.pin p l] := rfl

@[simp] theorem digitalWrite_level (D : Device σ) (p : Nat) (l : Bool) (h : Hw σ) :
    (digitalWrite D p l h).level = fun q => if q = p then l else h.level q := rfl

@[simp] theorem digitalWrite_setup (D : Device σ) (p : Nat) (l : Bool) (h : Hw σ) :
    (digitalWrite D p l h).setup = h.setup := rfl

@[simp] theorem transfer_trace (D : Device σ) (b : Nat) (h : Hw σ) :
    (SPI.transfer D b h).2.trace = h.trace ++ [Event.xfer (b % 256) (SPI.transfer D b h).1] := rfl

@[simp] theorem transfer_level (D : Device σ) (b : Nat) (h : Hw σ) :
    (SPI.transfer D b h).2.level = h.level := rfl

@[simp] theorem transfer_setup (D : Device σ) (b : Nat) (h : Hw σ) :
    (SPI.transfer D b h).2.setup = h.setup := rfl

theorem transfer_lt (D : Device σ) (b : Nat) (h : Hw σ) : (SPI.transfer D b h).1 < 256 :=
  Nat.mod_lt _ (by decide)

theorem page_program_loop_spec (D : Device σ) (buf : Nat → Nat) (n : Nat) :
    ∀ (i : Nat) (h : Hw σ), ∃ resp : List Nat, resp.length = n ∧
      (flash_page_program.loop D buf n i h).trace =
        h.trace ++ List.zipWith Event.xfer ((List.range' i n).map fun j => buf j % 256) resp ∧
      (flash_page_program.loop D buf n i h).level = h.level ∧
      (flash_page_program.loop D buf n i h).setup = h.setup := by
  induction n with
  | zero => intro i h; exact ⟨[], rfl, by simp [flash_page_program.loop], rfl, rfl⟩
  | succ n ih =>
    intro i h
    obtain ⟨resp, hlen, htr, hlv, hst⟩ := ih (i + 1) (SPI.transfer D (buf i) h).2
    refine ⟨(SPI.transfer D (buf i) h).1 :: resp, by simp [hlen], ?_, ?_, ?_⟩
    · simp [flash_page_program.loop, htr, List.range'_succ]
    · simp [flash_page_program.loop, hlv]
    · simp [flash_page_program.loop, hst]

theorem read_data_loop_spec (D : Device σ) (n : Nat) :
    ∀ (i : Nat) (buf : Nat → Nat) (h : Hw σ), ∃ resp : List Nat, resp.length = n ∧
      (flash_read_data_bytes.loop D n i buf h).2.trace =
        h.trace ++ List.zipWith Event.xfer (List.replicate n 0) resp ∧
      (∀ j, j < n → resp[j]? = some ((flash_read_data_bytes.loop D n i buf h).1 (i + j))) ∧
      (∀ j, j < i ∨ i + n ≤ j → (flash_read_data_bytes.loop D n i buf h).1 j = buf j) ∧
      (flash_read_data_bytes.loop D n i buf h).2.level = h.level ∧
      (flash_read_data_bytes.loop D n i buf h).2.setup = h.setup := by
  induction n with
  | zero =>
    intro i buf h
    exact ⟨[], rfl, by simp [flash_read_data_bytes.loop], by simp,
      by simp [flash_read_data_bytes.loop], rfl, rfl⟩
  | succ n ih =>
    intro i buf h
    obtain ⟨resp, hlen, htr, hget, hkeep, hlv, hst⟩ :=
      ih (i + 1) (fun j => if j = i then (SPI.transfer D 0 h).1 else buf j) (SPI.transfer D 0 h).2
    refine ⟨(SPI.transfer D 0 h).1 :: resp, by simp [hlen], ?_, ?_, ?_, ?_, ?_⟩
    · simp [flash_read_data_bytes.loop, htr, List.replicate_succ]
    · intro j hj
      cases j with
      | zero =>
        have := hkeep i (Or.inl (Nat.lt_succ_self i))
        simp [flash_read_data_bytes.loop] at this ⊢
        exact this.symm
      | succ j =>
        have := hget j (by omega)
        have e : i + 1 + j = i + (j + 1) := by omega
        rw [e] at this
        simp only [flash_read_data_bytes.loop, List.getElem?_cons_succ]
        exact this
    · intro j hj
      have := hkeep j (by omega)
      simp only [flash_read_data_bytes.loop]
      rw [this]
      have : j ≠ i := by omega
      simp [this]
    · simp [flash_read_data_bytes.loop, hlv]
    · simp [flash_read_data_bytes.loop, hst]

end lemmas

/-! ## The frame emitted by each command method -/

section specs
variable {σ : Type}

theorem read_identification_loop_spec (D : Device σ) (n : Nat) :
    ∀ (i : Nat) (p : flash_identification) (h : Hw σ), ∃ resp : List Nat, resp.length = n ∧
      (flash_read_identification.loop D n i p h).2.trace =
        h.trace ++ List.zipWith Event.xfer (List.replicate n 0) resp ∧
      (∀ j, j < n →
        resp[j]? = some ((flash_read_identification.loop D n i p h).1.cfd_content (i + j))) ∧
      (∀ j, j < i ∨ i + n ≤ j →
        (flash_read_identification.loop D n i p h).1.cfd_content j = p.cfd_content j) ∧
      (flash_read_identification.loop D n i p h).1.manufacturer = p.manufacturer ∧
      (flash_read_identification.loop D n i p h).1.memory_type = p.memory_type ∧
      (flash_read_identification.loop D n i p h).1.memory_capacity = p.memory_capacity ∧
      (flash_read_identification.loop D n i p h).1.cfd_length = p.cfd_length ∧
      (flash_read_identification.loop D n i p h).2.level = h.level ∧
      (flash_read_identification.loop D n i p h).2.setup = h.setup := by
  induction n with
  | zero =>
    intro i p h
    exact ⟨[], rfl, by simp [flash_read_identification.loop], by simp,
      by simp [flash_read_identification.loop], rfl, rfl, rfl, rfl, rfl, rfl⟩
  | succ n ih =>
    intro i p h
    obtain ⟨resp, hlen, htr, hget, hkeep, h1, h2, h3, h4, hlv, hst⟩ :=
      ih (i + 1)
        { p with cfd_content := fun j => if j = i then (SPI.transfer D 0 h).1 else p.cfd_content j }
        (SPI.transfer D 0 h).2
    refine ⟨(SPI.transfer D 0 h).1 :: resp, by simp [hlen], ?_, ?_, ?_, ?_, ?_, ?_, ?_, ?_, ?_⟩
    · simp [flash_read_identification.loop, htr, List.replicate_succ]
    · intro j hj
      cases j with
      | zero =>
        have := hkeep i (Or.inl (Nat.lt_succ_self i))
        simp [flash_read_identification.loop] at this ⊢
        exact this.symm
      | succ j =>
        have := hget j (by omega)
        have e : i + 1 + j = i + (j + 1) := by omega
        rw [e] at this
        simp only [flash_read_identification.loop, List.getElem?_cons_succ]
        exact this
    · intro j hj
      have := hkeep j (by omega)
      simp only [flash_read_identification.loop]
      rw [this]
      have : j ≠ i := by omega
      simp [this]
    · simpa [flash_read_identification.loop] using h1
    · simpa [flash_read_identification.loop] using h2
    · simpa [flash_read_identification.loop] using h3
    · simpa [flash_read_identification.loop] using h4
    · simp [flash_read_identification.loop, hlv]
    · simp [flash_read_identification.loop, hst]

/-- Closing a transaction: if `h1` was reached from `SPI_ASSERT` by the
exchanges `outs`/`resp` alone, then `SPI_DEASSERT` completes one frame. -/
theorem emits_of_body (D : Device σ) (f : SPIFlash) (h h1 : Hw σ) (outs resp : List Nat)
    (hlen : resp.length = outs.length)
    (htr : h1.trace = (SPI_ASSERT D f h).trace ++ List.zipWith Event.xfer outs resp)
    (hlv : h1.level = (SPI_ASSERT D f h).level) (hst : h1.setup = (SPI_ASSERT D f h).setup) :
    Emits h (SPI_DEASSERT D f h1) f._cspin outs resp := by
  refine ⟨hlen, ?_, ?_, ?_, ?_⟩
  · simp [SPI_DEASSERT, SPI_ASSERT, frame, htr] at *
  · simp [SPI_DEASSERT]
  · intro q hq
    simp [SPI_DEASSERT, SPI_ASSERT, hlv, hq]
  · simp [SPI_DEASSERT, SPI_ASSERT, hst]

theorem flash_write_enable_spec (D : Device σ) (f : SPIFlash) (h : Hw σ) :
    ∃ r, Emits h (flash_write_enable D f h) f._cspin [0x06] [r] :=
  ⟨_, emits_of_body D f h _ [0x06] [_] (by simp) rfl rfl rfl⟩

theorem flash_write_disable_spec (D : Device σ) (f : SPIFlash) (h : Hw σ) :
    ∃ r, Emits h (flash_write_disable D f h) f._cspin [0x04] [r] :=
  ⟨_, emits_of_body D f h _ [0x04] [_] (by simp) rfl rfl rfl⟩

theorem flash_bulk_erase_spec (D : Device σ) (f : SPIFlash) (h : Hw σ) :
    ∃ r, Emits h (flash_bulk_erase D f h) f._cspin [0xC7] [r] :=
  ⟨_, emits_of_body D f h _ [0xC7] [_] (by simp) rfl rfl rfl⟩

theorem flash_deep_power_down_spec (D : Device σ) (f : SPIFlash) (h : Hw σ) :
    ∃ r, Emits h (flash_deep_power_down D f h) f._cspin [0xB9] [r] :=
  ⟨_, emits_of_body D f h _ [0xB9] [_] (by simp) rfl rfl rfl⟩

theorem flash_release_from_deep_power_down_spec (D : Device σ) (f : SPIFlash) (h : Hw σ) :
    ∃ r, Emits h (flash_release_from_deep_power_down D f h) f._cspin [0xAB] [r] :=
  ⟨_, emits_of_body D f h _ [0xAB] [_] (by simp) rfl rfl rfl⟩

theorem flash_read_status_register_spec (D : Device σ) (f : SPIFlash) (h : Hw σ) :
    ∃ r, Emits h (flash_read_status_register D f h).2 f._cspin [0x05, 0x00]
      [r, (flash_read_status_register D f h).1] := by
  let t0 := SPI.transfer D SPI_READ_STATUS_REGISTER (SPI_ASSERT D f h)
  let t1 := SPI.transfer D 0 t0.2
  exact ⟨t0.1, emits_of_body D f h t1.2 _ _ (by simp)
    (by simp [t0, t1, SPI_READ_STATUS_REGISTER, flash_read_status_register]) rfl rfl⟩

theorem flash_write_status_register_spec (D : Device σ) (f : SPIFlash) (sreg : Nat) (h : Hw σ) :
    ∃ r0 r1, Emits h (flash_write_status_register D f sreg h) f._cspin [0x01, sreg % 256]
      [r0, r1] := by
  let t0 := SPI.transfer D SPI_WRITE_STATUS_REGISTER (SPI_ASSERT D f h)
  let t1 := SPI.transfer D sreg t0.2
  exact ⟨t0.1, t1.1, emits_of_body D f h t1.2 _ _ (by simp)
    (by simp [t0, t1, SPI_WRITE_STATUS_REGISTER]) rfl rfl⟩

theorem flash_sector_erase_spec (D : Device σ) (f : SPIFlash) (addr : Nat) (h : Hw σ) :
    ∃ r0 r1 r2 r3, Emits h (flash_sector_erase D f addr h) f._cspin
      [0xD8, (addr >>> 16) % 256, (addr >>> 8) % 256, addr % 256] [r0, r1, r2, r3] := by
  let t0 := SPI.transfer D SPI_SECTOR_ERASE (SPI_ASSERT D f h)
  let t1 := SPI.transfer D (addr >>> 16) t0.2
  let t2 := SPI.transfer D (addr >>> 8) t1.2
  let t3 := SPI.transfer D (addr >>> 0) t2.2
  exact ⟨t0.1, t1.1, t2.1, t3.1, emits_of_body D f h t3.2 _ _ (by simp)
    (by simp [t0, t1, t2, t3, SPI_SECTOR_ERASE]) rfl rfl⟩

theorem flash_page_program_spec (D : Device σ) (f : SPIFlash) (addr : Nat) (buf : Nat → Nat)
    (siz : Nat) (h : Hw σ) :
    ∃ resp, Emits h (flash_page_program D f addr buf siz h) f._cspin
      (0x02 :: (addr >>> 16) % 256 :: (addr >>> 8) % 256 :: addr % 256 ::
        (List.range siz).map fun i => buf i % 256) resp := by
  let t0 := SPI.transfer D SPI_PAGE_PROGRAM (SPI_ASSERT D f h)
  let t1 := SPI.transfer D (addr >>> 16) t0.2
  let t2 := SPI.transfer D (addr >>> 8) t1.2
  let t3 := SPI.transfer D (addr >>> 0) t2.2
  obtain ⟨resp, hlen, htr, hlv, hst⟩ := page_program_loop_spec D buf siz 0 t3.2
  refine ⟨t0.1 :: t1.1 :: t2.1 :: t3.1 :: resp,
    emits_of_body D f h (flash_page_program.loop D buf siz 0 t3.2) _ _ (by simp [hlen]) ?_ ?_ ?_⟩
  · rw [htr]
    simp [t0, t1, t2, t3, SPI_PAGE_PROGRAM, List.range_eq_range']
  · rw [hlv]; rfl
  · rw [hst]; rfl

theorem flash_read_data_bytes_spec (D : Device σ) (f : SPIFlash) (addr : Nat) (buf : Nat → Nat)
    (siz : Nat) (h : Hw σ) :
    ∃ hdr data : List Nat, hdr.length = 4 ∧ data.length = siz ∧
      Emits h (flash_read_data_bytes D f addr buf siz h).2 f._cspin
        (0x03 :: (addr >>> 16) % 256 :: (addr >>> 8) % 256 :: addr % 256 ::
          List.replicate siz 0) (hdr ++ data) ∧
      (∀ i, i < siz → data[i]? = some ((flash_read_data_bytes D f addr buf siz h).1 i)) ∧
      (∀ i, siz ≤ i → (flash_read_data_bytes D f addr buf siz h).1 i = buf i) := by
  let t0 := SPI.transfer D SPI_READ_DATA_BYTES (SPI_ASSERT D f h)
  let t1 := SPI.transfer D (addr >>> 16) t0.2
  let t2 := SPI.transfer D (addr >>> 8) t1.2
  let t3 := SPI.transfer D (addr >>> 0) t2.2
  obtain ⟨data, hlen, htr, hget, hkeep, hlv, hst⟩ := read_data_loop_spec D siz 0 buf t3.2
  refine ⟨[t0.1, t1.1, t2.1, t3.1], data, rfl, hlen,
    emits_of_body D f h (flash_read_data_bytes.loop D siz 0 buf t3.2).2 _ _ (by simp [hlen])
      ?_ ?_ ?_, ?_, ?_⟩
  · rw [htr]
    simp [t0, t1, t2, t3, SPI_READ_DATA_BYTES]
  · rw [hlv]; rfl
  · rw [hst]; rfl
  · intro i hi
    simpa using hget i hi
  · intro i hi
    exact hkeep i (Or.inr (by omega))

theorem flash_read_identification_spec (D : Device σ) (f : SPIFlash) (p : flash_identification)
    (h : Hw σ) :
    ∃ r0 content : List Nat, r0.length = 1 ∧
      content.length = (flash_read_identification D f p h).1.cfd_length ∧
      Emits h (flash_read_identification D f p h).2 f._cspin
        (0x9F :: List.replicate (4 + (flash_read_identification D f p h).1.cfd_length) 0)
        (r0 ++ (flash_read_identification D f p h).1.manufacturer ::
          (flash_read_identification D f p h).1.memory_type ::
          (flash_read_identification D f p h).1.memory_capacity ::
          (flash_read_identification D f p h).1.cfd_length :: content) ∧
      (∀ i, i < (flash_read_identification D f p h).1.cfd_length →
        content[i]? = some ((flash_read_identification D f p h).1.cfd_content i)) ∧
      (∀ i, (flash_read_identification D f p h).1.cfd_length ≤ i →
        (flash_read_identification D f p h).1.cfd_content i = p.cfd_content i) := by
  let t0 := SPI.transfer D SPI_READ_IDENTIFICATION (SPI_ASSERT D f h)
  let t1 := SPI.transfer D 0 t0.2
  let t2 := SPI.transfer D 0 t1.2
  let t3 := SPI.transfer D 0 t2.2
  let t4 := SPI.transfer D 0 t3.2
  let p4 : flash_identification :=
    { manufacturer := t1.1, memory_type := t2.1, memory_capacity := t3.1, cfd_length := t4.1,
      cfd_content := p.cfd_content }
  have hdef : flash_read_identification D f p h =
      ((flash_read_identification.loop D t4.1 0 p4 t4.2).1,
        SPI_DEASSERT D f (flash_read_identification.loop D t4.1 0 p4 t4.2).2) := rfl
  obtain ⟨content, hlen, htr, hget, hkeep, h1, h2, h3, h4, hlv, hst⟩ :=
    read_identification_loop_spec D t4.1 0 p4 t4.2
  rw [hdef]
  simp only [h1, h2, h3, h4]
  refine ⟨[t0.1], content, rfl, hlen,
    emits_of_body D f h (flash_read_identification.loop D t4.1 0 p4 t4.2).2 _ _
      (by simp [hlen, p4]; omega) ?_ ?_ ?_, ?_, ?_⟩
  · rw [htr]
    simp [t0, t1, t2, t3, t4, p4, SPI_READ_IDENTIFICATION, List.replicate_succ,
      show 4 + (SPI.transfer D 0 (SPI.transfer D 0 (SPI.transfer D 0 (SPI.transfer D 0
        (SPI.transfer D 159 (SPI_ASSERT D f h)).2).2).2).2).1 =
        (SPI.transfer D 0 (SPI.transfer D 0 (SPI.transfer D 0 (SPI.transfer D 0
        (SPI.transfer D 159 (SPI_ASSERT D f h)).2).2).2).2).1 + 4 from Nat.add_comm _ _]
  · rw [hlv]; rfl
  · rw [hst]; rfl
  · intro i hi
    simpa using hget i hi
  · intro i hi
    exact hkeep i (Or.inr (by simpa using hi))

end specs

/-! ## Opcodes and address bytes -/

theorem firstExchange_of_emits {σ : Type} {h1 h2 : Hw σ} {cs opc : Nat} {outs resp : List Nat}
    (e : Emits h1 h2 cs (opc :: outs) resp) : FirstExchange h1 h2 cs opc := by
  obtain ⟨hlen, htr, -⟩ := e
  cases resp with
  | nil => simp at hlen
  | cons r resp => exact ⟨r, List.zipWith Event.xfer outs resp ++ [Event.pin cs HIGH], by
      simpa [frame] using htr⟩

theorem and_255 (x : Nat) : x &&& 0xFF = x % 256 := Nat.and_pow_two_sub_one_eq_mod x 8

/-- C1: in each of the eleven command methods the first byte exchanged after
chip-select is driven LOW is the opcode of the specification table, whatever
the arguments and whatever the device answers. -/
theorem C1_first_exchange_is_opcode {σ : Type} (D : Device σ) (f : SPIFlash) (h : Hw σ)
    (p : flash_identification) (sreg addr siz : Nat) (buf : Nat → Nat) :
    FirstExchange h (flash_write_enable D f h) f._cspin 0x06 ∧
    FirstExchange h (flash_write_disable D f h) f._cspin 0x04 ∧
    FirstExchange h (flash_read_status_register D f h).2 f._cspin 0x05 ∧
    FirstExchange h (flash_write_status_register D f sreg h) f._cspin 0x01 ∧
    FirstExchange h (flash_read_data_bytes D f addr buf siz h).2 f._cspin 0x03 ∧
    FirstExchange h (flash_page_program D f addr buf siz h) f._cspin 0x02 ∧
    FirstExchange h (flash_sector_erase D f addr h) f._cspin 0xD8 ∧
    FirstExchange h (flash_bulk_erase D f h) f._cspin 0xC7 ∧
    FirstExchange h (flash_deep_power_down D f h) f._cspin 0xB9 ∧
    FirstExchange h (flash_release_from_deep_power_down D f h) f._cspin 0xAB ∧
    FirstExchange h (flash_read_identification D f p h).2 f._cspin 0x9F := by
  refine ⟨?_, ?_, ?_, ?_, ?_, ?_, ?_, ?_, ?_, ?_, ?_⟩
  · obtain ⟨_, e⟩ := flash_write_enable_spec D f h
    exact firstExchange_of_emits e
  · obtain ⟨_, e⟩ := flash_write_disable_spec D f h
    exact firstExchange_of_emits e
  · obtain ⟨_, e⟩ := flash_read_status_register_spec D f h
    exact firstExchange_of_emits e
  · obtain ⟨_, _, e⟩ := flash_write_status_register_spec D f sreg h
    exact firstExchange_of_emits e
  · obtain ⟨_, _, _, _, e, -⟩ := flash_read_data_bytes_spec D f addr buf siz h
    exact firstExchange_of_emits e
  · obtain ⟨_, e⟩ := flash_page_program_spec D f addr buf siz h
    exact firstExchange_of_emits e
  · obtain ⟨_, _, _, _, e⟩ := flash_sector_erase_spec D f addr h
    exact firstExchange_of_emits e
  · obtain ⟨_, e⟩ := flash_bulk_erase_spec D f h
    exact firstExchange_of_emits e
  · obtain ⟨_, e⟩ := flash_deep_power_down_spec D f h
    exact firstExchange_of_emits e
  · obtain ⟨_, e⟩ := flash_release_from_deep_power_down_spec D f h
    exact firstExchange_of_emits e
  · obtain ⟨_, _, _, _, e, -⟩ := flash_read_identification_spec D f p h
    exact firstExchange_of_emits e

/-- C2: for an address below 2^24, read-data, page-program and sector-erase
each send, right after the opcode, the three bytes `(addr >> 16) & 0xFF`,
`(addr >> 8) & 0xFF`, `addr & 0xFF` in this order (sector-erase sends nothing
more, the other two continue with their data phase), and reading the three
bytes back as a big-endian number gives `addr`. -/
theorem C2_address_bytes_big_endian {σ : Type} (D : Device σ) (f : SPIFlash) (h : Hw σ)
    (addr siz : Nat) (buf : Nat → Nat) (haddr : addr < 2 ^ 24) :
    (∃ resp, resp.length = 4 + siz ∧
      (flash_read_data_bytes D f addr buf siz h).2.trace = h.trace ++ frame f._cspin
        (0x03 :: ((addr >>> 16) &&& 0xFF) :: ((addr >>> 8) &&& 0xFF) :: (addr &&& 0xFF) ::
          List.replicate siz 0) resp) ∧
    (∃ resp, resp.length = 4 + siz ∧
      (flash_page_program D f addr buf siz h).trace = h.trace ++ frame f._cspin
        (0x02 :: ((addr >>> 16) &&& 0xFF) :: ((addr >>> 8) &&& 0xFF) :: (addr &&& 0xFF) ::
          (List.range siz).map fun i => buf i % 256) resp) ∧
    (∃ resp, resp.length = 4 ∧
      (flash_sector_erase D f addr h).trace = h.trace ++ frame f._cspin
        [0xD8, (addr >>> 16) &&& 0xFF, (addr >>> 8) &&& 0xFF, addr &&& 0xFF] resp) ∧
    ((addr >>> 16) &&& 0xFF) * 65536 + ((addr >>> 8) &&& 0xFF) * 256 + (addr &&& 0xFF) = addr := by
  simp only [and_255]
  refine ⟨?_, ?_, ?_, ?_⟩
  · obtain ⟨hdr, data, h4, hn, e, -⟩ := flash_read_data_bytes_spec D f addr buf siz h
    exact ⟨hdr ++ data, by simp [h4, hn], e.2.1⟩
  · obtain ⟨resp, e⟩ := flash_page_program_spec D f addr buf siz h
    exact ⟨resp, by have := e.1; simp at this; omega, e.2.1⟩
  · obtain ⟨r0, r1, r2, r3, e⟩ := flash_sector_erase_spec D f addr h
    exact ⟨[r0, r1, r2, r3], rfl, e.2.1⟩
  · simp only [Nat.shiftRight_eq_div_pow]
    omega

/-- Witness of C2 at address 0x123456: the bytes 0x12, 0x34, 0x56 decode to it. -/
theorem C2_address_bytes_big_endian_witness :
    0x123456 < 2 ^ 24 ∧
    ((0x123456 >>> 16) &&& 0xFF) * 65536 + ((0x123456 >>> 8) &&& 0xFF) * 256 +
      (0x123456 &&& 0xFF) = 0x123456 :=
  ⟨by decide, (C2_address_bytes_big_endian (streamDevice fun _ => 0) { _cspin := 10 }
    (Hw.boot 0) 0x123456 0 (fun _ => 0) (by decide)).2.2.2⟩

/-! ## Data phases: identification, page program, read data -/

theorem list_eq_map_range_of_getElem {l : List Nat} {n : Nat} {g : Nat → Nat}
    (hlen : l.length = n) (hget : ∀ i, i < n → l[i]? = some (g i)) :
    l = (List.range n).map g := by
  apply List.ext_getElem?
  intro i
  by_cases hi : i < n
  · rw [hget i hi]
    simp [List.getElem?_range hi, hi]
  · have h1 : l.length ≤ i := by omega
    have h2 : ((List.range n).map g).length ≤ i := by simp; omega
    rw [List.getElem?_eq_none h1, List.getElem?_eq_none h2]

/-- C3: evaluation of `flash_read_identification` on a response stream whose
cfd-length byte is 17 (every other byte is 0xAA), starting from a record
holding zeroes: the method performs 17 content exchanges and stores the
seventeenth byte at index 16, one past the declared 16-byte `cfd_content`. -/
theorem C3_identification_overrun_at_length_17 :
    (flash_read_identification (streamDevice fun k => if k = 4 then 17 else 0xAA)
        { _cspin := 10 } Caller.zero.ident (Hw.boot 0)).2.trace =
      frame 10 (0x9F :: List.replicate (4 + 17) 0)
        ([0xAA, 0xAA, 0xAA, 0xAA, 17] ++ List.replicate 17 0xAA) ∧
    cfd_capacity = 16 ∧
    Caller.zero.ident.cfd_content 16 = 0 ∧
    (flash_read_identification (streamDevice fun k => if k = 4 then 17 else 0xAA)
        { _cspin := 10 } Caller.zero.ident (Hw.boot 0)).1.cfd_content 16 = 0xAA := by
  decide

/-- C4: `flash_page_program` puts exactly one frame on the bus, for every
address and every buffer of bytes of every length: select LOW, opcode 0x02,
the three address bytes, then `buf[0] .. buf[siz-1]` in order and unchanged
(`4 + siz` exchanges), select HIGH. -/
theorem C4_page_program_passes_buffer_through {σ : Type} (D : Device σ) (f : SPIFlash)
    (h : Hw σ) (addr siz : Nat) (buf : Nat → Nat) (hbytes : ∀ i, i < siz → buf i < 256) :
    ∃ resp, resp.length = 4 + siz ∧
      (flash_page_program D f addr buf siz h).trace = h.trace ++ frame f._cspin
        (0x02 :: (addr >>> 16) % 256 :: (addr >>> 8) % 256 :: addr % 256 ::
          (List.range siz).map buf) resp := by
  obtain ⟨resp, e⟩ := flash_page_program_spec D f addr buf siz h
  have hmap : ((List.range siz).map fun i => buf i % 256) = (List.range siz).map buf := by
    apply List.map_congr_left
    intro i hi
    exact Nat.mod_eq_of_lt (hbytes i (List.mem_range.mp hi))
  rw [hmap] at e
  exact ⟨resp, by have := e.1; simp at this; omega, e.2.1⟩

/-- Witness of C4: three bytes programmed at the last byte of a page. -/
theorem C4_page_program_passes_buffer_through_witness :
    ∃ resp, resp.length = 4 + 3 ∧
      (flash_page_program (streamDevice fun _ => 0) { _cspin := 10 } 0x1234FF
          (fun i => i + 1) 3 (Hw.boot 0)).trace = (Hw.boot 0).trace ++ frame 10
        (0x02 :: (0x1234FF >>> 16) % 256 :: (0x1234FF >>> 8) % 256 :: 0x1234FF % 256 ::
          (List.range 3).map fun i => i + 1) resp :=
  C4_page_program_passes_buffer_through (streamDevice fun _ => 0) { _cspin := 10 } (Hw.boot 0)
    0x1234FF 3 (fun i => i + 1) (by decide)

/-- C5: `flash_read_data_bytes` sends opcode 0x03 and the three address
bytes, then exactly `siz` further exchanges that each send 0x00; the bytes
answered to the four header bytes (`hdr`) are dropped, the byte answered to
the i-th dummy exchange is what `buf[i]` holds afterwards, and no index from
`siz` on is written. -/
theorem C5_read_data_bytes_fills_buffer {σ : Type} (D : Device σ) (f : SPIFlash) (h : Hw σ)
    (addr siz : Nat) (buf : Nat → Nat) :
    ∃ hdr data : List Nat, hdr.length = 4 ∧ data.length = siz ∧
      (flash_read_data_bytes D f addr buf siz h).2.trace = h.trace ++ frame f._cspin
        (0x03 :: (addr >>> 16) % 256 :: (addr >>> 8) % 256 :: addr % 256 ::
          List.replicate siz 0) (hdr ++ data) ∧
      data = (List.range siz).map (flash_read_data_bytes D f addr buf siz h).1 ∧
      ∀ k, (flash_read_data_bytes D f addr buf siz h).1 (siz + k) = buf (siz + k) := by
  obtain ⟨hdr, data, h4, hn, e, hget, hkeep⟩ := flash_read_data_bytes_spec D f addr buf siz h
  exact ⟨hdr, data, h4, hn, e.2.1, list_eq_map_range_of_getElem hn hget,
    fun k => hkeep _ (Nat.le_add_right _ _)⟩

/-- C6: when the cfd-length byte is at most 16, `flash_read_identification`
sends opcode 0x9F and then `4 + L` bytes 0x00; the byte answered to the opcode
(`r0`) is dropped, the next four answers are what `manufacturer`,
`memory_type`, `memory_capacity` and `cfd_length` hold afterwards, and the
`L = cfd_length` answers after them are what `cfd_content[0 .. L-1]` hold;
nothing is stored at or beyond index 16. -/
theorem C6_read_identification_fields {σ : Type} (D : Device σ) (f : SPIFlash) (h : Hw σ)
    (p : flash_identification)
    (hL : (flash_read_identification D f p h).1.cfd_length ≤ 16) :
    ∃ (r0 : Nat) (content : List Nat),
      content.length = (flash_read_identification D f p h).1.cfd_length ∧
      (flash_read_identification D f p h).2.trace = h.trace ++ frame f._cspin
        (0x9F :: List.replicate (4 + (flash_read_identification D f p h).1.cfd_length) 0)
        (r0 :: (flash_read_identification D f p h).1.manufacturer ::
          (flash_read_identification D f p h).1.memory_type ::
          (flash_read_identification D f p h).1.memory_capacity ::
          (flash_read_identification D f p h).1.cfd_length :: content) ∧
      content = (List.range (flash_read_identification D f p h).1.cfd_length).map
        (flash_read_identification D f p h).1.cfd_content ∧
      ∀ k, (flash_read_identification D f p h).1.cfd_content (cfd_capacity + k) =
        p.cfd_content (cfd_capacity + k) := by
  obtain ⟨r0, content, h1, hn, e, hget, hkeep⟩ := flash_read_identification_spec D f p h
  cases r0 with
  | nil => simp at h1
  | cons r tl =>
    have htl : tl = [] := by
      cases tl with
      | nil => rfl
      | cons _ _ => simp at h1
    subst htl
    exact ⟨r, content, hn, by simpa using e.2.1, list_eq_map_range_of_getElem hn hget,
      fun k => hkeep _ (by simp only [cfd_capacity]; omega)⟩

/-- Witness of C6: a device answering 0, 1, 2, 3, then the length 16, then the
sixteen content bytes 5, 6, .., 20. -/
theorem C6_read_identification_fields_witness :
    ∃ (r0 : Nat) (content : List Nat),
      content.length = 16 ∧
      (flash_read_identification
          (streamDevice fun k => if k = 4 then 16 else k) { _cspin := 10 }
          Caller.zero.ident (Hw.boot 0)).2.trace = frame 10
        (0x9F :: List.replicate (4 + 16) 0) (r0 :: 1 :: 2 :: 3 :: 16 :: content) ∧
      content = [5, 6, 7, 8, 9, 10, 11, 12, 13, 14, 15, 16, 17, 18, 19, 20] := by
  have hL : (flash_read_identification
      (streamDevice fun k => if k = 4 then 16 else k) { _cspin := 10 }
      Caller.zero.ident (Hw.boot 0)).1.cfd_length ≤ 16 := by decide
  obtain ⟨r0, content, h1, h2, h3, -⟩ := C6_read_identification_fields
    (streamDevice fun k => if k = 4 then 16 else k) { _cspin := 10 } (Hw.boot 0)
    Caller.zero.ident hL
  refine ⟨r0, content, h1, ?_, ?_⟩
  · rw [h2]; rfl
  · rw [h3]; decide
/-! ## One transaction per call -/

theorem all_isXfer_zipWith (outs resp : List Nat) :
    (List.zipWith Event.xfer outs resp).all Event.isXfer = true := by
  induction outs generalizing resp with
  | nil => simp
  | cons o outs ih =>
    cases resp with
    | nil => simp
    | cons r resp => simp [Event.isXfer, ih]

/-- Every call emits one frame that starts with the opcode of the specification table. -/
theorem exec_emits {σ : Type} (D : Device σ) (f : SPIFlash) (c : Cmd) (s : Caller × Hw σ) :
    ∃ outs resp, Emits s.2 (Cmd.exec D f c s).2 f._cspin (c.specOpcode :: outs) resp := by
  cases c with
  | write_enable =>
    obtain ⟨r, e⟩ := flash_write_enable_spec D f s.2
    exact ⟨_, _, e⟩
  | write_disable =>
    obtain ⟨r, e⟩ := flash_write_disable_spec D f s.2
    exact ⟨_, _, e⟩
  | read_identification =>
    obtain ⟨r0, content, -, -, e, -⟩ := flash_read_identification_spec D f s.1.ident s.2
    exact ⟨_, _, e⟩
  | read_status_register =>
    obtain ⟨r, e⟩ := flash_read_status_register_spec D f s.2
    exact ⟨_, _, e⟩
  | write_status_register sreg =>
    obtain ⟨r0, r1, e⟩ := flash_write_status_register_spec D f sreg s.2
    exact ⟨_, _, e⟩
  | read_data_bytes addr siz =>
    obtain ⟨hdr, data, -, -, e, -⟩ := flash_read_data_bytes_spec D f addr s.1.buf siz s.2
    exact ⟨_, _, e⟩
  | page_program addr buf siz =>
    obtain ⟨resp, e⟩ := flash_page_program_spec D f addr buf siz s.2
    exact ⟨_, _, e⟩
  | sector_erase addr =>
    obtain ⟨r0, r1, r2, r3, e⟩ := flash_sector_erase_spec D f addr s.2
    exact ⟨_, _, e⟩
  | bulk_erase =>
    obtain ⟨r, e⟩ := flash_bulk_erase_spec D f s.2
    exact ⟨_, _, e⟩
  | deep_power_down =>
    obtain ⟨r, e⟩ := flash_deep_power_down_spec D f s.2
    exact ⟨_, _, e⟩
  | release_from_deep_power_down =>
    obtain ⟨r, e⟩ := flash_release_from_deep_power_down_spec D f s.2
    exact ⟨_, _, e⟩

/-- C7: each of the eleven command methods, whatever its arguments and
whatever the device answers, adds to the bus trace exactly: one write of LOW
to chip-select, the exchange of its opcode, further exchanges only (`body`
holds no pin write), one write of HIGH to chip-select. Chip-select is HIGH
after the call. -/
theorem C7_one_transaction_per_call {σ : Type} (D : Device σ) (f : SPIFlash) (c : Cmd)
    (s : Caller × Hw σ) :
    ∃ (inp : Nat) (body : List Event),
      (Cmd.exec D f c s).2.trace =
        s.2.trace ++ [Event.pin f._cspin LOW] ++ Event.xfer c.specOpcode inp :: body
          ++ [Event.pin f._cspin HIGH] ∧
      body.all Event.isXfer = true ∧
      (Cmd.exec D f c s).2.level f._cspin = HIGH := by
  obtain ⟨outs, resp, hlen, htr, hlv, -⟩ := exec_emits D f c s
  cases resp with
  | nil => simp at hlen
  | cons r resp =>
    exact ⟨r, List.zipWith Event.xfer outs resp, by simpa [frame] using htr,
      all_isXfer_zipWith outs resp, hlv⟩

/-! ## Status register flags -/

theorem and_two_pow_eq (s k : Nat) : s &&& 2 ^ k = if s.testBit k then 2 ^ k else 0 := by
  apply Nat.eq_of_testBit_eq
  intro i
  by_cases hb : s.testBit k = true
  · by_cases hik : k = i
    · subst hik; simp [hb]
    · simp [hb, Nat.testBit_two_pow, hik]
  · by_cases hik : k = i
    · subst hik; simp [hb]
    · simp [hb, Nat.testBit_two_pow, hik]

theorem testBit_eq_of_and_eq {s t m : Nat} (k : Nat) (hst : s &&& m = t &&& m)
    (hm : m.testBit k = true) : s.testBit k = t.testBit k := by
  have := congrArg (fun x => Nat.testBit x k) hst
  simpa [hm] using this

/-- C8: the six status-register macros follow the bit layout of the
specification: each is non-zero exactly when its own bit (0, 1, 2, 3, 4, 7)
of the status value is set, each is determined by that bit alone, and two
status values that agree outside the reserved bits 5 and 6 decode to the same
six flags. -/
theorem C8_status_flags_follow_bit_layout (s t : Nat) :
    ((FLASH_SREG_WRITE_IN_PROGRESS s ≠ 0 ↔ s.testBit 0 = true) ∧
     (FLASH_SREG_WRITE_ENABLE_LATCH s ≠ 0 ↔ s.testBit 1 = true) ∧
     (FLASH_SREG_BLOCK_PROTECT_BP0 s ≠ 0 ↔ s.testBit 2 = true) ∧
     (FLASH_SREG_BLOCK_PROTECT_BP1 s ≠ 0 ↔ s.testBit 3 = true) ∧
     (FLASH_SREG_BLOCK_PROTECT_BP2 s ≠ 0 ↔ s.testBit 4 = true) ∧
     (FLASH_SREG_WRITE_PROTECT s ≠ 0 ↔ s.testBit 7 = true)) ∧
    (FLASH_SREG_WRITE_IN_PROGRESS s = (if s.testBit 0 then 1 else 0) ∧
     FLASH_SREG_WRITE_ENABLE_LATCH s = (if s.testBit 1 then 2 else 0) ∧
     FLASH_SREG_BLOCK_PROTECT_BP0 s = (if s.testBit 2 then 4 else 0) ∧
     FLASH_SREG_BLOCK_PROTECT_BP1 s = (if s.testBit 3 then 8 else 0) ∧
     FLASH_SREG_BLOCK_PROTECT_BP2 s = (if s.testBit 4 then 16 else 0) ∧
     FLASH_SREG_WRITE_PROTECT s = (if s.testBit 7 then 128 else 0)) ∧
    (s &&& 0x9F = t &&& 0x9F →
      FLASH_SREG_WRITE_IN_PROGRESS s = FLASH_SREG_WRITE_IN_PROGRESS t ∧
      FLASH_SREG_WRITE_ENABLE_LATCH s = FLASH_SREG_WRITE_ENABLE_LATCH t ∧
      FLASH_SREG_BLOCK_PROTECT_BP0 s = FLASH_SREG_BLOCK_PROTECT_BP0 t ∧
      FLASH_SREG_BLOCK_PROTECT_BP1 s = FLASH_SREG_BLOCK_PROTECT_BP1 t ∧
      FLASH_SREG_BLOCK_PROTECT_BP2 s = FLASH_SREG_BLOCK_PROTECT_BP2 t ∧
      FLASH_SREG_WRITE_PROTECT s = FLASH_SREG_WRITE_PROTECT t) := by
  have e0 : ∀ x, FLASH_SREG_WRITE_IN_PROGRESS x = if x.testBit 0 then 1 else 0 :=
    fun x => by simpa [FLASH_SREG_WRITE_IN_PROGRESS, Nat.one_shiftLeft] using and_two_pow_eq x 0
  have e1 : ∀ x, FLASH_SREG_WRITE_ENABLE_LATCH x = if x.testBit 1 then 2 else 0 :=
    fun x => by simpa [FLASH_SREG_WRITE_ENABLE_LATCH, Nat.one_shiftLeft] using and_two_pow_eq x 1
  have e2 : ∀ x, FLASH_SREG_BLOCK_PROTECT_BP0 x = if x.testBit 2 then 4 else 0 :=
    fun x => by simpa [FLASH_SREG_BLOCK_PROTECT_BP0, Nat.one_shiftLeft] using and_two_pow_eq x 2
  have e3 : ∀ x, FLASH_SREG_BLOCK_PROTECT_BP1 x = if x.testBit 3 then 8 else 0 :=
    fun x => by simpa [FLASH_SREG_BLOCK_PROTECT_BP1, Nat.one_shiftLeft] using and_two_pow_eq x 3
  have e4 : ∀ x, FLASH_SREG_BLOCK_PROTECT_BP2 x = if x.testBit 4 then 16 else 0 :=
    fun x => by simpa [FLASH_SREG_BLOCK_PROTECT_BP2, Nat.one_shiftLeft] using and_two_pow_eq x 4
  have e7 : ∀ x, FLASH_SREG_WRITE_PROTECT x = if x.testBit 7 then 128 else 0 :=
    fun x => by simpa [FLASH_SREG_WRITE_PROTECT, Nat.one_shiftLeft] using and_two_pow_eq x 7
  refine ⟨⟨?_, ?_, ?_, ?_, ?_, ?_⟩, ⟨e0 s, e1 s, e2 s, e3 s, e4 s, e7 s⟩, ?_⟩
  · rw [e0]; cases s.testBit 0 <;> simp
  · rw [e1]; cases s.testBit 1 <;> simp
  · rw [e2]; cases s.testBit 2 <;> simp
  · rw [e3]; cases s.testBit 3 <;> simp
  · rw [e4]; cases s.testBit 4 <;> simp
  · rw [e7]; cases s.testBit 7 <;> simp
  · intro hst
    rw [e0, e1, e2, e3, e4, e7, e0, e1, e2, e3, e4, e7,
      testBit_eq_of_and_eq 0 hst (by decide), testBit_eq_of_and_eq 1 hst (by decide),
      testBit_eq_of_and_eq 2 hst (by decide), testBit_eq_of_and_eq 3 hst (by decide),
      testBit_eq_of_and_eq 4 hst (by decide), testBit_eq_of_and_eq 7 hst (by decide)]
    exact ⟨rfl, rfl, rfl, rfl, rfl, rfl⟩

/-- Witness of C8: 0x83 and 0xE3 differ in bits 5 and 6 only and decode alike. -/
theorem C8_status_flags_follow_bit_layout_witness :
    0x83 &&& 0x9F = 0xE3 &&& 0x9F ∧
    FLASH_SREG_WRITE_IN_PROGRESS 0x83 = FLASH_SREG_WRITE_IN_PROGRESS 0xE3 ∧
    FLASH_SREG_WRITE_ENABLE_LATCH 0x83 = FLASH_SREG_WRITE_ENABLE_LATCH 0xE3 ∧
    FLASH_SREG_BLOCK_PROTECT_BP0 0x83 = FLASH_SREG_BLOCK_PROTECT_BP0 0xE3 ∧
    FLASH_SREG_BLOCK_PROTECT_BP1 0x83 = FLASH_SREG_BLOCK_PROTECT_BP1 0xE3 ∧
    FLASH_SREG_BLOCK_PROTECT_BP2 0x83 = FLASH_SREG_BLOCK_PROTECT_BP2 0xE3 ∧
    FLASH_SREG_WRITE_PROTECT 0x83 = FLASH_SREG_WRITE_PROTECT 0xE3 :=
  ⟨by decide, (C8_status_flags_follow_bit_layout 0x83 0xE3).2.2 (by decide)⟩

/-! ## Sequences of calls and the write-enable latch -/

theorem frameOpcodes_append_pin (cs : Nat) (lvl : Bool) (u : List Event) :
    ∀ (t : List Event) (b : Bool),
      frameOpcodes cs b (t ++ Event.pin cs lvl :: u) =
        frameOpcodes cs b t ++ frameOpcodes cs (!lvl) u := by
  intro t
  induction t with
  | nil => intro b; simp [frameOpcodes]
  | cons e t ih =>
    intro b
    cases e with
    | pin p l => simp [frameOpcodes, ih]
    | xfer o r => cases b <;> simp [frameOpcodes, ih]

theorem frameOpcodes_exchanges (cs : Nat) (outs resp : List Nat) :
    frameOpcodes cs false (List.zipWith Event.xfer outs resp ++ [Event.pin cs HIGH]) = [] := by
  induction outs generalizing resp with
  | nil => simp [frameOpcodes]
  | cons o outs ih =>
    cases resp with
    | nil => simp [frameOpcodes]
    | cons r resp => simpa [frameOpcodes] using ih resp

theorem frameOpcodes_append_frame (cs opc : Nat) (outs resp : List Nat) (t : List Event)
    (b : Bool) (hlen : resp.length = (opc :: outs).length) :
    frameOpcodes cs b (t ++ frame cs (opc :: outs) resp) = frameOpcodes cs b t ++ [opc] := by
  cases resp with
  | nil => simp at hlen
  | cons r resp =>
    have hbody := frameOpcodes_exchanges cs outs resp
    simp only [frame, List.zipWith_cons_cons, List.cons_append]
    rw [frameOpcodes_append_pin]
    simp [frameOpcodes, hbody]

theorem frameOpcodes_run {σ : Type} (D : Device σ) (f : SPIFlash) (ops : List Cmd) :
    ∀ s : Caller × Hw σ,
      frameOpcodes f._cspin false (Cmd.run D f ops s).2.trace =
        frameOpcodes f._cspin false s.2.trace ++ ops.map Cmd.specOpcode := by
  induction ops with
  | nil => intro s; simp [Cmd.run]
  | cons c ops ih =>
    intro s
    obtain ⟨outs, resp, hlen, htr, -⟩ := exec_emits D f c s
    rw [Cmd.run, ih, htr, frameOpcodes_append_frame _ _ _ _ _ _ hlen]
    simp

/-- C9, the claim fails: after construction, two `flash_bulk_erase` calls in
a row put two bulk-erase frames (0xC7) on the wire with no write-enable frame
between them, so the second mutating frame breaks the rule. -/
theorem C9_driver_does_not_enforce_write_enable :
    (session (streamDevice fun _ => 0) 0 10 Caller.zero
        [Cmd.bulk_erase, Cmd.bulk_erase]).2.trace =
      [Event.pin 10 HIGH] ++ frame 10 [0x06] [0] ++ frame 10 [0xC7] [0] ++ frame 10 [0xC7] [0] ∧
    frameOpcodes 10 false (session (streamDevice fun _ => 0) 0 10 Caller.zero
        [Cmd.bulk_erase, Cmd.bulk_erase]).2.trace = [0x06, 0xC7, 0xC7] ∧
    welRule false (frameOpcodes 10 false (session (streamDevice fun _ => 0) 0 10 Caller.zero
        [Cmd.bulk_erase, Cmd.bulk_erase]).2.trace) = false := by
  decide

/-- C9 as amended: the driver puts on the wire the write-enable frame of the
constructor followed by exactly one frame per call, in call order and with
that call's opcode; it neither adds a write-enable frame nor holds a mutating
frame back. So the wire obeys the write-enable-before-mutate rule exactly
when the caller's own sequence of calls obeys it, the latch counting as set
by the constructor. -/
theorem C9_wire_opcodes_follow_calls {σ : Type} (D : Device σ) (d : σ) (cspin : Nat)
    (m : Caller) (ops : List Cmd) :
    frameOpcodes cspin false (session D d cspin m ops).2.trace =
      0x06 :: ops.map Cmd.specOpcode ∧
    welRule false (frameOpcodes cspin false (session D d cspin m ops).2.trace) =
      welRule true (ops.map Cmd.specOpcode) := by
  have key : frameOpcodes cspin false (session D d cspin m ops).2.trace =
      0x06 :: ops.map Cmd.specOpcode := by
    have hrun := frameOpcodes_run D (SPIFlash.new D cspin (Hw.boot d)).1 ops
      (m, (SPIFlash.new D cspin (Hw.boot d)).2)
    have hf : (SPIFlash.new D cspin (Hw.boot d)).1._cspin = cspin := rfl
    rw [hf] at hrun
    rw [session, hrun]
    simp [SPIFlash.new, Hw.boot, frameOpcodes, SPI_WRITE_ENABLE, SPIset, SPI.begin,
      SPI.setBitOrder, SPI.setDataMode, SPI.setClockDivider, pinModeOutput]
  rw [key]
  exact ⟨rfl, by simp [welRule]⟩

/-! ## Addresses outside the device -/

/-- C10, the claim fails: address 2097152, the first one past the end of the
device (8192 pages of 256 bytes), reaches the wire as the address bytes
0x20, 0x00, 0x00 in all three methods. -/
theorem C10_out_of_range_address_reaches_wire :
    flash_PAGE_COUNT * flash_PAGE_BYTE_SIZE - 1 < 2097152 ∧
    (flash_read_data_bytes (streamDevice fun _ => 0) { _cspin := 10 } 2097152 (fun _ => 0) 1
        (Hw.boot 0)).2.trace = frame 10 [0x03, 0x20, 0x00, 0x00, 0x00] [0, 0, 0, 0, 0] ∧
    (flash_page_program (streamDevice fun _ => 0) { _cspin := 10 } 2097152 (fun _ => 0x55) 1
        (Hw.boot 0)).trace = frame 10 [0x02, 0x20, 0x00, 0x00, 0x55] [0, 0, 0, 0, 0] ∧
    (flash_sector_erase (streamDevice fun _ => 0) { _cspin := 10 } 2097152
        (Hw.boot 0)).trace = frame 10 [0xD8, 0x20, 0x00, 0x00] [0, 0, 0, 0] ∧
    0x20 * 65536 + 0x00 * 256 + 0x00 = 2097152 := by
  decide

/-- C10 as amended: the driver has no address clamp or guard. For every
address past the end of the device, read-data, page-program and sector-erase
each emit their frame with the address bytes `(addr >> 16) & 0xFF`,
`(addr >> 8) & 0xFF`, `addr & 0xFF`; these are the low 24 bits of `addr`, so
an out-of-range address below 2^24 is on the wire as it is. -/
theorem C10_no_address_guard {σ : Type} (D : Device σ) (f : SPIFlash) (h : Hw σ)
    (addr siz : Nat) (buf : Nat → Nat)
    (haddr : flash_PAGE_COUNT * flash_PAGE_BYTE_SIZE - 1 < addr) :
    (∃ resp, resp.length = 4 + siz ∧
      (flash_read_data_bytes D f addr buf siz h).2.trace = h.trace ++ frame f._cspin
        (0x03 :: ((addr >>> 16) &&& 0xFF) :: ((addr >>> 8) &&& 0xFF) :: (addr &&& 0xFF) ::
          List.replicate siz 0) resp) ∧
    (∃ resp, resp.length = 4 + siz ∧
      (flash_page_program D f addr buf siz h).trace = h.trace ++ frame f._cspin
        (0x02 :: ((addr >>> 16) &&& 0xFF) :: ((addr >>> 8) &&& 0xFF) :: (addr &&& 0xFF) ::
          (List.range siz).map fun i => buf i % 256) resp) ∧
    (∃ resp, resp.length = 4 ∧
      (flash_sector_erase D f addr h).trace = h.trace ++ frame f._cspin
        [0xD8, (addr >>> 16) &&& 0xFF, (addr >>> 8) &&& 0xFF, addr &&& 0xFF] resp) ∧
    ((addr >>> 16) &&& 0xFF) * 65536 + ((addr >>> 8) &&& 0xFF) * 256 + (addr &&& 0xFF) =
      addr % 2 ^ 24 ∧
    (addr < 2 ^ 24 → flash_PAGE_COUNT * flash_PAGE_BYTE_SIZE - 1 <
      ((addr >>> 16) &&& 0xFF) * 65536 + ((addr >>> 8) &&& 0xFF) * 256 + (addr &&& 0xFF)) := by
  simp only [and_255]
  have hdec : (addr >>> 16) % 256 * 65536 + (addr >>> 8) % 256 * 256 + addr % 256 =
      addr % 2 ^ 24 := by
    simp only [Nat.shiftRight_eq_div_pow]
    omega
  refine ⟨?_, ?_, ?_, hdec, ?_⟩
  · obtain ⟨hdr, data, h4, hn, e, -⟩ := flash_read_data_bytes_spec D f addr buf siz h
    exact ⟨hdr ++ data, by simp [h4, hn], e.2.1⟩
  · obtain ⟨resp, e⟩ := flash_page_program_spec D f addr buf siz h
    exact ⟨resp, by have := e.1; simp at this; omega, e.2.1⟩
  · obtain ⟨r0, r1, r2, r3, e⟩ := flash_sector_erase_spec D f addr h
    exact ⟨[r0, r1, r2, r3], rfl, e.2.1⟩
  · intro h24
    rw [hdec, Nat.mod_eq_of_lt h24]
    exact haddr

/-- Witness of the amended C10 at address 0x345678, which lies past the end
of the device: its three address bytes are the address itself. -/
theorem C10_no_address_guard_witness :
    flash_PAGE_COUNT * flash_PAGE_BYTE_SIZE - 1 < 0x345678 ∧
    ((0x345678 >>> 16) &&& 0xFF) * 65536 + ((0x345678 >>> 8) &&& 0xFF) * 256 +
      (0x345678 &&& 0xFF) = 0x345678 % 2 ^ 24 :=
  ⟨by decide, (C10_no_address_guard (streamDevice fun _ => 0) { _cspin := 10 } (Hw.boot 0)
    0x345678 0 (fun _ => 0) (by decide)).2.2.2.1⟩

/-! ## Address truncation -/

theorem transfer_congr {σ : Type} (D : Device σ) (x y : Nat) (h : Hw σ)
    (hxy : x % 256 = y % 256) : SPI.transfer D x h = SPI.transfer D y h := by
  simp only [SPI.transfer, hxy]

theorem shift_add_mul_two_pow_24 (addr k : Nat) :
    ((addr + k * 2 ^ 24) >>> 16) % 256 = (addr >>> 16) % 256 ∧
    ((addr + k * 2 ^ 24) >>> 8) % 256 = (addr >>> 8) % 256 ∧
    ((addr + k * 2 ^ 24) >>> 0) % 256 = (addr >>> 0) % 256 := by
  simp only [Nat.shiftRight_eq_div_pow]
  omega

/-- C11: the address bytes are taken from `addr` without any range check
and bits 24 and above are dropped. `addr` and `addr + k * 2^24` make the
three methods behave identically (same bus events, same results), the frame
is always emitted, and its address bytes are the three bytes of
`addr mod 2^24`. -/
theorem C11_address_truncated_to_24_bits {σ : Type} (D : Device σ) (f : SPIFlash) (h : Hw σ)
    (addr k siz : Nat) (buf : Nat → Nat) :
    flash_read_data_bytes D f (addr + k * 2 ^ 24) buf siz h =
      flash_read_data_bytes D f addr buf siz h ∧
    flash_page_program D f (addr + k * 2 ^ 24) buf siz h =
      flash_page_program D f addr buf siz h ∧
    flash_sector_erase D f (addr + k * 2 ^ 24) h = flash_sector_erase D f addr h ∧
    (∃ resp, resp.length = 4 + siz ∧
      (flash_read_data_bytes D f addr buf siz h).2.trace = h.trace ++ frame f._cspin
        (0x03 :: ((addr % 2 ^ 24) >>> 16) :: ((addr % 2 ^ 24) >>> 8) % 256 ::
          (addr % 2 ^ 24) % 256 :: List.replicate siz 0) resp) ∧
    (∃ resp, resp.length = 4 + siz ∧
      (flash_page_program D f addr buf siz h).trace = h.trace ++ frame f._cspin
        (0x02 :: ((addr % 2 ^ 24) >>> 16) :: ((addr % 2 ^ 24) >>> 8) % 256 ::
          (addr % 2 ^ 24) % 256 :: (List.range siz).map fun i => buf i % 256) resp) ∧
    (∃ resp, resp.length = 4 ∧
      (flash_sector_erase D f addr h).trace = h.trace ++ frame f._cspin
        [0xD8, (addr % 2 ^ 24) >>> 16, ((addr % 2 ^ 24) >>> 8) % 256,
          (addr % 2 ^ 24) % 256] resp) := by
  obtain ⟨e16, e8, e0⟩ := shift_add_mul_two_pow_24 addr k
  have b2 : (addr % 2 ^ 24) >>> 16 = (addr >>> 16) % 256 := by
    simp only [Nat.shiftRight_eq_div_pow]; omega
  have b1 : ((addr % 2 ^ 24) >>> 8) % 256 = (addr >>> 8) % 256 := by
    simp only [Nat.shiftRight_eq_div_pow]; omega
  have b0 : (addr % 2 ^ 24) % 256 = addr % 256 := by omega
  rw [b2, b1, b0]
  refine ⟨?_, ?_, ?_, ?_, ?_, ?_⟩
  · simp only [flash_read_data_bytes, transfer_congr D _ _ _ e16, transfer_congr D _ _ _ e8,
      transfer_congr D _ _ _ e0]
  · simp only [flash_page_program, transfer_congr D _ _ _ e16, transfer_congr D _ _ _ e8,
      transfer_congr D _ _ _ e0]
  · simp only [flash_sector_erase, transfer_congr D _ _ _ e16, transfer_congr D _ _ _ e8,
      transfer_congr D _ _ _ e0]
  · obtain ⟨hdr, data, h4, hn, e, -⟩ := flash_read_data_bytes_spec D f addr buf siz h
    exact ⟨hdr ++ data, by simp [h4, hn], e.2.1⟩
  · obtain ⟨resp, e⟩ := flash_page_program_spec D f addr buf siz h
    exact ⟨resp, by have := e.1; simp at this; omega, e.2.1⟩
  · obtain ⟨r0, r1, r2, r3, e⟩ := flash_sector_erase_spec D f addr h
    exact ⟨[r0, r1, r2, r3], rfl, e.2.1⟩

/-! ## Short frames -/

/-- C12: `flash_write_status_register` emits exactly the frame select LOW,
opcode 0x01, one data byte equal to `sreg` with all eight bits as given,
select HIGH: two exchanges. -/
theorem C12_write_status_register_frame {σ : Type} (D : Device σ) (f : SPIFlash) (h : Hw σ)
    (sreg : Nat) (hs : sreg < 256) :
    ∃ r0 r1, (flash_write_status_register D f sreg h).trace =
      h.trace ++ [Event.pin f._cspin LOW, Event.xfer 0x01 r0, Event.xfer sreg r1,
        Event.pin f._cspin HIGH] := by
  obtain ⟨r0, r1, e⟩ := flash_write_status_register_spec D f sreg h
  rw [Nat.mod_eq_of_lt hs] at e
  exact ⟨r0, r1, by simpa [frame] using e.2.1⟩

/-- Witness of C12: the byte 0xFF, with the bits 0, 1, 5 and 6 set, is sent as 0xFF. -/
theorem C12_write_status_register_frame_witness :
    ∃ r0 r1, (flash_write_status_register (streamDevice fun _ => 0) { _cspin := 10 } 0xFF
        (Hw.boot 0)).trace =
      (Hw.boot 0).trace ++ [Event.pin 10 LOW, Event.xfer 0x01 r0, Event.xfer 0xFF r1,
        Event.pin 10 HIGH] :=
  C12_write_status_register_frame (streamDevice fun _ => 0) { _cspin := 10 } (Hw.boot 0) 0xFF
    (by decide)

/-- C13: each of the five opcode-only commands adds exactly three events to
the bus trace: select LOW, one exchange sending its opcode, select HIGH. -/
theorem C13_opcode_only_frames {σ : Type} (D : Device σ) (f : SPIFlash) (h : Hw σ) :
    (∃ r, (flash_write_enable D f h).trace =
      h.trace ++ [Event.pin f._cspin LOW, Event.xfer 0x06 r, Event.pin f._cspin HIGH]) ∧
    (∃ r, (flash_write_disable D f h).trace =
      h.trace ++ [Event.pin f._cspin LOW, Event.xfer 0x04 r, Event.pin f._cspin HIGH]) ∧
    (∃ r, (flash_bulk_erase D f h).trace =
      h.trace ++ [Event.pin f._cspin LOW, Event.xfer 0xC7 r, Event.pin f._cspin HIGH]) ∧
    (∃ r, (flash_deep_power_down D f h).trace =
      h.trace ++ [Event.pin f._cspin LOW, Event.xfer 0xB9 r, Event.pin f._cspin HIGH]) ∧
    (∃ r, (flash_release_from_deep_power_down D f h).trace =
      h.trace ++ [Event.pin f._cspin LOW, Event.xfer 0xAB r, Event.pin f._cspin HIGH]) := by
  refine ⟨?_, ?_, ?_, ?_, ?_⟩
  · obtain ⟨r, e⟩ := flash_write_enable_spec D f h
    exact ⟨r, by simpa [frame] using e.2.1⟩
  · obtain ⟨r, e⟩ := flash_write_disable_spec D f h
    exact ⟨r, by simpa [frame] using e.2.1⟩
  · obtain ⟨r, e⟩ := flash_bulk_erase_spec D f h
    exact ⟨r, by simpa [frame] using e.2.1⟩
  · obtain ⟨r, e⟩ := flash_deep_power_down_spec D f h
    exact ⟨r, by simpa [frame] using e.2.1⟩
  · obtain ⟨r, e⟩ := flash_release_from_deep_power_down_spec D f h
    exact ⟨r, by simpa [frame] using e.2.1⟩

theorem flash_sreg_bits (v : Nat) :
    FLASH_SREG_WRITE_IN_PROGRESS v = (if v.testBit 0 then 1 else 0) ∧
    FLASH_SREG_WRITE_ENABLE_LATCH v = (if v.testBit 1 then 2 else 0) := by
  constructor
  · simpa [FLASH_SREG_WRITE_IN_PROGRESS, Nat.one_shiftLeft] using and_two_pow_eq v 0
  · simpa [FLASH_SREG_WRITE_ENABLE_LATCH, Nat.one_shiftLeft] using and_two_pow_eq v 1

/-- C14: `flash_read_status_register` sends opcode 0x05 and then exactly one
more exchange sending 0x00, and returns the byte answered to that second
exchange, not the one answered to the opcode: on a response stream `s` read
from position `hs.dev` it returns byte `hs.dev + 1` of the stream. The two
macros applied to the returned value give bit 0 (WIP) and bit 1 (WEL) of that
streamed byte: non-zero when the bit is set, 0 when it is clear. -/
theorem C14_read_status_register_returns_second_byte {σ : Type} (D : Device σ) (f : SPIFlash)
    (h : Hw σ) (s : Nat → Nat) (hs : Hw Nat) :
    (∃ r0, (flash_read_status_register D f h).2.trace =
      h.trace ++ [Event.pin f._cspin LOW, Event.xfer 0x05 r0,
        Event.xfer 0x00 (flash_read_status_register D f h).1, Event.pin f._cspin HIGH]) ∧
    (flash_read_status_register (streamDevice s) f hs).2.trace =
      hs.trace ++ [Event.pin f._cspin LOW, Event.xfer 0x05 (s hs.dev % 256),
        Event.xfer 0x00 (s (hs.dev + 1) % 256), Event.pin f._cspin HIGH] ∧
    (flash_read_status_register (streamDevice s) f hs).1 = s (hs.dev + 1) % 256 ∧
    FLASH_SREG_WRITE_IN_PROGRESS (flash_read_status_register (streamDevice s) f hs).1 =
      (if (s (hs.dev + 1)).testBit 0 then 1 else 0) ∧
    FLASH_SREG_WRITE_ENABLE_LATCH (flash_read_status_register (streamDevice s) f hs).1 =
      (if (s (hs.dev + 1)).testBit 1 then 2 else 0) := by
  have hv : (flash_read_status_register (streamDevice s) f hs).1 = s (hs.dev + 1) % 256 := by
    simp [flash_read_status_register, SPI_ASSERT, SPI.transfer, digitalWrite, streamDevice]
  have hbit : ∀ i, i < 8 → (s (hs.dev + 1) % 256).testBit i = (s (hs.dev + 1)).testBit i := by
    intro i hi
    rw [show (256 : Nat) = 2 ^ 8 from rfl, Nat.testBit_mod_two_pow]
    simp [hi]
  refine ⟨?_, ?_, hv, ?_, ?_⟩
  · obtain ⟨r, e⟩ := flash_read_status_register_spec D f h
    exact ⟨r, by simpa [frame] using e.2.1⟩
  · simp [flash_read_status_register, SPI_ASSERT, SPI_DEASSERT, SPI.transfer, digitalWrite,
      streamDevice, SPI_READ_STATUS_REGISTER]
  · rw [hv, (flash_sreg_bits _).1, hbit 0 (by decide)]
  · rw [hv, (flash_sreg_bits _).2, hbit 1 (by decide)]

/-! ## Geometry -/

/-- C15, the claim fails twice: the capacity given by the geometry constants
is 2,097,152 bytes, which is not 2^24 = 16,777,216, and a sector holds
65536 / 256 = 8192 / 32 = 256 pages, not 2048. -/
theorem C15_capacity_is_not_two_pow_24 :
    flash_PAGE_COUNT * flash_PAGE_BYTE_SIZE = 2097152 ∧
    flash_PAGE_COUNT * flash_PAGE_BYTE_SIZE ≠ 2 ^ 24 ∧
    flash_SECTOR_BYTE_SIZE / flash_PAGE_BYTE_SIZE ≠ 2048 ∧
    flash_PAGE_COUNT / flash_SECTOR_COUNT ≠ 2048 := by
  decide

/-- C15 as amended: page size 256, page count 8192, sector size 65536,
sector count 32; both products give 2,097,152 bytes, with 256 pages per
sector and highest address 2,097,151. The capacity is 2^21: addresses need 21
of the 24 address bits and the device fills one eighth of the 24-bit space. -/
theorem C15_geometry_constants :
    flash_PAGE_BYTE_SIZE = 256 ∧ flash_PAGE_COUNT = 8192 ∧
    flash_SECTOR_BYTE_SIZE = 65536 ∧ flash_SECTOR_COUNT = 32 ∧
    flash_PAGE_COUNT * flash_PAGE_BYTE_SIZE = 2097152 ∧
    flash_SECTOR_COUNT * flash_SECTOR_BYTE_SIZE = 2097152 ∧
    flash_SECTOR_BYTE_SIZE / flash_PAGE_BYTE_SIZE = 256 ∧
    flash_PAGE_COUNT / flash_SECTOR_COUNT = 256 ∧
    flash_PAGE_COUNT * flash_PAGE_BYTE_SIZE - 1 = 2097151 ∧
    flash_PAGE_COUNT * flash_PAGE_BYTE_SIZE = 2 ^ 21 ∧
    8 * (flash_PAGE_COUNT * flash_PAGE_BYTE_SIZE) = 2 ^ 24 := by
  decide

/-! ## Busy polling -/

theorem frameOpcodes_exec_boot {σ : Type} (D : Device σ) (d : σ) (f : SPIFlash) (c : Cmd)
    (m : Caller) :
    frameOpcodes f._cspin false (Cmd.exec D f c (m, Hw.boot d)).2.trace = [c.specOpcode] := by
  obtain ⟨outs, resp, hlen, htr, -⟩ := exec_emits D f c (m, Hw.boot d)
  rw [htr, frameOpcodes_append_frame _ _ _ _ _ _ hlen]
  simp [Hw.boot, frameOpcodes]

theorem exec_read_status_stream (s : Nat → Nat) (f : SPIFlash) (m : Caller) (hs : Hw Nat) :
    (Cmd.exec (streamDevice s) f Cmd.read_status_register (m, hs)).1.sreg =
      s (hs.dev + 1) % 256 ∧
    (Cmd.exec (streamDevice s) f Cmd.read_status_register (m, hs)).2.dev = hs.dev + 2 ∧
    (Cmd.exec (streamDevice s) f Cmd.read_status_register (m, hs)).2.trace =
      hs.trace ++ frame f._cspin [0x05, 0x00] [s hs.dev % 256, s (hs.dev + 1) % 256] := by
  simp [Cmd.exec, flash_read_status_register, SPI_ASSERT, SPI_DEASSERT, SPI.transfer,
    digitalWrite, streamDevice, SPI_READ_STATUS_REGISTER, frame]

/-- C17, the claim fails: the driver has no busy-poll operation. On the
response stream whose first status byte has WIP = 1 and whose second has
WIP = 0 the claim asks for an operation that issues two read-status frames;
every one of the eleven methods issues exactly one frame, and
`flash_read_status_register` returns after its single frame with the busy
byte 0x01. -/
theorem C17_no_method_polls :
    (∀ c : Cmd, (frameOpcodes 10 false
      (Cmd.exec (streamDevice fun k => if k = 1 then 0x01 else 0x00) { _cspin := 10 } c
        (Caller.zero, Hw.boot 0)).2.trace).length = 1) ∧
    (flash_read_status_register (streamDevice fun k => if k = 1 then 0x01 else 0x00)
      { _cspin := 10 } (Hw.boot 0)).2.trace = frame 10 [0x05, 0x00] [0x00, 0x01] ∧
    (flash_read_status_register (streamDevice fun k => if k = 1 then 0x01 else 0x00)
      { _cspin := 10 } (Hw.boot 0)).1 = 0x01 ∧
    FLASH_SREG_WRITE_IN_PROGRESS 0x01 ≠ 0 := by
  refine ⟨fun c => ?_, by decide, by decide, by decide⟩
  have := frameOpcodes_exec_boot (streamDevice fun k => if k = 1 then 0x01 else 0x00) 0
    { _cspin := 10 } c Caller.zero
  simp only [] at this
  rw [this]
  rfl

/-- C17 as amended: polling is left to the caller. Each call of
`flash_read_status_register` issues exactly one read-status frame and returns
the status byte whatever its WIP bit; `k` calls in a row put exactly `k`
read-status frames on the bus, and call number `j + 1` returns status byte
number `j + 1` of the response stream (the stream byte at offset `2 * j + 1`). -/
theorem C17_status_polling_is_per_call (s : Nat → Nat) (f : SPIFlash) (k j : Nat) :
    ∀ (m : Caller) (hs : Hw Nat),
      (Cmd.run (streamDevice s) f (List.replicate k Cmd.read_status_register)
        (m, hs)).2.trace = hs.trace ++ statusPollFrames f._cspin s hs.dev k ∧
      (Cmd.run (streamDevice s) f (List.replicate (j + 1) Cmd.read_status_register)
        (m, hs)).1.sreg = s (hs.dev + 2 * j + 1) % 256 := by
  induction k generalizing j with
  | zero =>
    induction j with
    | zero =>
      intro m hs
      exact ⟨by simp [Cmd.run, statusPollFrames],
        by simpa [Cmd.run] using (exec_read_status_stream s f m hs).1⟩
    | succ j ihj =>
      intro m hs
      refine ⟨by simp [Cmd.run, statusPollFrames], ?_⟩
      obtain ⟨-, hdev, -⟩ := exec_read_status_stream s f m hs
      have := (ihj (Cmd.exec (streamDevice s) f Cmd.read_status_register (m, hs)).1
        (Cmd.exec (streamDevice s) f Cmd.read_status_register (m, hs)).2).2
      rw [hdev] at this
      rw [List.replicate_succ, Cmd.run, this]
      congr 2
      omega
  | succ k ihk =>
    intro m hs
    obtain ⟨-, hdev, htr⟩ := exec_read_status_stream s f m hs
    have h1 := (ihk j (Cmd.exec (streamDevice s) f Cmd.read_status_register (m, hs)).1
      (Cmd.exec (streamDevice s) f Cmd.read_status_register (m, hs)).2).1
    have h2 := (ihk j m hs).2
    refine ⟨?_, h2⟩
    rw [List.replicate_succ, Cmd.run, h1, hdev, htr, statusPollFrames]
    simp

/-! ## Construction -/

theorem new_trace {σ : Type} (D : Device σ) (cspin : Nat) (h : Hw σ) :
    ∃ r, (SPIFlash.new D cspin h).2.trace =
      h.trace ++ Event.pin cspin HIGH :: frame cspin [0x06] [r] := by
  let h1 := digitalWrite D cspin LOW
    (SPIset (SPI.begin (digitalWrite D cspin HIGH (pinModeOutput cspin h))))
  exact ⟨(SPI.transfer D SPI_WRITE_ENABLE h1).1, by
    simp [h1, SPIFlash.new, frame, SPI_WRITE_ENABLE, SPIset, SPI.begin, SPI.setBitOrder,
      SPI.setDataMode, SPI.setClockDivider, pinModeOutput]⟩

theorem frameOpcodes_session {σ : Type} (D : Device σ) (d : σ) (cspin : Nat) (m : Caller)
    (ops : List Cmd) :
    frameOpcodes cspin false (session D d cspin m ops).2.trace =
      0x06 :: ops.map Cmd.specOpcode := by
  have hrun := frameOpcodes_run D (SPIFlash.new D cspin (Hw.boot d)).1 ops
    (m, (SPIFlash.new D cspin (Hw.boot d)).2)
  have hf : (SPIFlash.new D cspin (Hw.boot d)).1._cspin = cspin := rfl
  rw [hf] at hrun
  rw [session, hrun]
  simp [SPIFlash.new, Hw.boot, frameOpcodes, SPI_WRITE_ENABLE, SPIset, SPI.begin,
    SPI.setBitOrder, SPI.setDataMode, SPI.setClockDivider, pinModeOutput]

/-- C18: the constructor writes HIGH to the chip-select pin before any byte
is exchanged, then emits exactly one write-enable frame (select LOW, exchange
of 0x06, select HIGH) and nothing else on the bus; chip-select is HIGH
afterwards, `_cspin` is `cspin`, and the other calls it makes are
configuration only. Whatever command is called first after construction, its
frame is the second one on the wire, right after that write-enable frame. -/
theorem C18_constructor_emits_write_enable {σ : Type} (D : Device σ) (d : σ) (cspin : Nat)
    (h : Hw σ) (m : Caller) (c : Cmd) :
    (∃ r, (SPIFlash.new D cspin h).2.trace =
      h.trace ++ [Event.pin cspin HIGH, Event.pin cspin LOW, Event.xfer 0x06 r,
        Event.pin cspin HIGH]) ∧
    (SPIFlash.new D cspin h).2.level cspin = HIGH ∧
    (SPIFlash.new D cspin h).1._cspin = cspin ∧
    (SPIFlash.new D cspin h).2.setup =
      h.setup ++ [Setup.pinModeOutput cspin, Setup.spiBegin, Setup.setBitOrderMSBFIRST,
        Setup.setDataModeMODE0, Setup.setClockDividerDIV2] ∧
    frameOpcodes cspin false (session D d cspin m [c]).2.trace = [0x06, c.specOpcode] ∧
    welRule false (frameOpcodes cspin false (session D d cspin m [c]).2.trace) = true := by
  have hs := frameOpcodes_session D d cspin m [c]
  refine ⟨?_, ?_, rfl, ?_, by simpa using hs, ?_⟩
  · obtain ⟨r, e⟩ := new_trace D cspin h
    exact ⟨r, by simpa [frame] using e⟩
  · simp [SPIFlash.new]
  · simp [SPIFlash.new, SPIset, SPI.begin, SPI.setBitOrder, SPI.setDataMode,
      SPI.setClockDivider, pinModeOutput]
  · rw [hs]
    cases c <;> simp [welRule, Cmd.specOpcode, isMutating]

/-! ## Untouched content slots -/

/-- C19: when the cfd-length byte `L` is at most 16, `flash_read_identification`
leaves `cfd_content[i]` as it was for every `i` with `L <= i < 16`. -/
theorem C19_read_identification_keeps_unused_slots {σ : Type} (D : Device σ) (f : SPIFlash)
    (h : Hw σ) (p : flash_identification) (i : Nat)
    (_hL : (flash_read_identification D f p h).1.cfd_length ≤ cfd_capacity)
    (hi : (flash_read_identification D f p h).1.cfd_length ≤ i) (_hi16 : i < cfd_capacity) :
    (flash_read_identification D f p h).1.cfd_content i = p.cfd_content i := by
  obtain ⟨-, -, -, -, -, -, hkeep⟩ := flash_read_identification_spec D f p h
  exact hkeep i hi

/-- Witness of C19: with the length byte 3, slot 5 keeps the value 105 it held. -/
theorem C19_read_identification_keeps_unused_slots_witness :
    (flash_read_identification (streamDevice fun k => if k = 4 then 3 else 0xAA)
      { _cspin := 10 }
      { manufacturer := 0, memory_type := 0, memory_capacity := 0, cfd_length := 0,
        cfd_content := fun i => 100 + i } (Hw.boot 0)).1.cfd_content 5 = 100 + 5 :=
  C19_read_identification_keeps_unused_slots (streamDevice fun k => if k = 4 then 3 else 0xAA)
    { _cspin := 10 } (Hw.boot 0)
    { manufacturer := 0, memory_type := 0, memory_capacity := 0, cfd_length := 0,
      cfd_content := fun i => 100 + i } 5 (by decide) (by decide) (by decide)

/-! ## Program then read against the device model -/

theorem programPage_spec (a : Nat) (data : List Nat) :
    ∀ (j0 : Nat) (mem : Nat → Nat) (x : Nat), a % 256 + j0 + data.length ≤ 256 →
      programPage a j0 data mem x =
        if a + j0 ≤ x ∧ x < a + j0 + data.length then data.getD (x - (a + j0)) 0 else mem x := by
  induction data with
  | nil =>
    intro j0 mem x _
    have hno : ¬ (a + j0 ≤ x ∧ x < a + j0 + ([] : List Nat).length) := by
      simp only [List.length_nil]; omega
    simp only [programPage, hno, if_false]
  | cons b bs ih =>
    intro j0 mem x hfit
    simp only [List.length_cons] at hfit
    rw [programPage, ih (j0 + 1) _ x (by omega)]
    have hmod : (a % 256 + j0) % 256 = a % 256 + j0 := Nat.mod_eq_of_lt (by omega)
    have haddr : a - a % 256 + (a % 256 + j0) % 256 = a + j0 := by
      rw [hmod]
      have := Nat.mod_le a 256
      omega
    rw [haddr]
    by_cases h1 : a + (j0 + 1) ≤ x ∧ x < a + (j0 + 1) + bs.length
    · have h2 : a + j0 ≤ x ∧ x < a + j0 + (bs.length + 1) := by omega
      have h3 : x - (a + j0) = (x - (a + (j0 + 1))) + 1 := by omega
      simp only [h1, h2, and_self, if_true, List.length_cons, h3, List.getD_cons_succ]
    · by_cases h4 : x = a + j0
      · have h2 : a + j0 ≤ x ∧ x < a + j0 + (bs.length + 1) := by omega
        simp [h1, h4]
      · have h2 : ¬ (a + j0 ≤ x ∧ x < a + j0 + (bs.length + 1)) := by omega
        simp only [h1, h2, h4, if_false, List.length_cons]

theorem flash_transfer (cs b : Nat) (h : Hw FlashState) (d0 : FlashState) (rx : List Nat)
    (hdev : h.dev = { d0 with selected := true, rx := rx }) :
    (SPI.transfer (flashDevice cs) b h).2.dev =
      { d0 with selected := true, rx := rx ++ [b % 256] } ∧
    (SPI.transfer (flashDevice cs) b h).1 =
      flashAnswer { d0 with selected := true, rx := rx } (rx ++ [b % 256]) % 256 := by
  simp [SPI.transfer, flashDevice, hdev]

theorem flash_assert (cs : Nat) (h : Hw FlashState) :
    (SPI_ASSERT (flashDevice cs) { _cspin := cs } h).dev =
      { h.dev with selected := true, rx := [] } := by
  simp [SPI_ASSERT, digitalWrite, flashDevice]

theorem flash_deassert (cs : Nat) (h : Hw FlashState) (d0 : FlashState) (rx : List Nat)
    (hdev : h.dev = { d0 with selected := true, rx := rx }) :
    (SPI_DEASSERT (flashDevice cs) { _cspin := cs } h).dev =
      { flashExecute { d0 with selected := true, rx := rx } with selected := false, rx := [] } := by
  simp [SPI_DEASSERT, digitalWrite, flashDevice, hdev]

theorem flash_page_program_loop_dev (cs : Nat) (buf : Nat → Nat) (d0 : FlashState) (n : Nat) :
    ∀ (i : Nat) (h : Hw FlashState) (rx : List Nat),
      h.dev = { d0 with selected := true, rx := rx } →
      (flash_page_program.loop (flashDevice cs) buf n i h).dev =
        { d0 with selected := true,
                  rx := rx ++ (List.range' i n).map fun j => buf j % 256 } := by
  induction n with
  | zero => intro i h rx hdev; simpa [flash_page_program.loop] using hdev
  | succ n ih =>
    intro i h rx hdev
    rw [flash_page_program.loop, ih (i + 1) _ (rx ++ [buf i % 256])
      (flash_transfer cs (buf i) h d0 rx hdev).1]
    simp [List.range'_succ]

theorem flash_read_loop_values (cs a2 a1 a0 : Nat) (d0 : FlashState)
    (hbusy : d0.busy = false) (hdpd : d0.deepPowerDown = false) (n : Nat) :
    ∀ (i k : Nat) (buf : Nat → Nat) (h : Hw FlashState),
      h.dev = { d0 with selected := true,
                        rx := 0x03 :: a2 :: a1 :: a0 :: List.replicate k 0 } →
      ∀ j, j < n →
        (flash_read_data_bytes.loop (flashDevice cs) n i buf h).1 (i + j) =
          d0.mem ((flashAddress a2 a1 a0 + (k + j)) % flashCapacity) % 256 := by
  induction n with
  | zero => intro i k buf h _ j hj; omega
  | succ n ih =>
    intro i k buf h hdev j hj
    obtain ⟨hd, hr⟩ := flash_transfer cs 0 h d0 _ hdev
    have hrx : 0x03 :: a2 :: a1 :: a0 :: List.replicate k 0 ++ [0 % 256] =
        0x03 :: a2 :: a1 :: a0 :: List.replicate (k + 1) 0 := by
      simp [List.replicate_succ']
    rw [hrx] at hd hr
    rw [flash_read_data_bytes.loop]
    cases j with
    | zero =>
      obtain ⟨-, -, -, -, hkeep, -⟩ := read_data_loop_spec (flashDevice cs) n (i + 1)
        (fun j => if j = i then (SPI.transfer (flashDevice cs) 0 h).1 else buf j)
        (SPI.transfer (flashDevice cs) 0 h).2
      simp only [Nat.add_zero]
      rw [hkeep i (Or.inl (Nat.lt_succ_self i))]
      simp [hr, flashAnswer, hbusy, hdpd]
    | succ j =>
      have := ih (i + 1) (k + 1)
        (fun j => if j = i then (SPI.transfer (flashDevice cs) 0 h).1 else buf j)
        (SPI.transfer (flashDevice cs) 0 h).2 hd j (by omega)
      have e1 : i + 1 + j = i + (j + 1) := by omega
      have e2 : k + 1 + j = k + (j + 1) := by omega
      rw [e1, e2] at this
      exact this

theorem flash_header (cs o a b c : Nat) (h : Hw FlashState) (d0 : FlashState)
    (hdev : h.dev = { d0 with selected := true, rx := [] }) :
    (SPI.transfer (flashDevice cs) c (SPI.transfer (flashDevice cs) b
      (SPI.transfer (flashDevice cs) a (SPI.transfer (flashDevice cs) o h).2).2).2).2.dev =
      { d0 with selected := true, rx := [o % 256, a % 256, b % 256, c % 256] } := by
  have h1 := (flash_transfer cs o h d0 [] hdev).1
  have h2 := (flash_transfer cs a _ d0 _ h1).1
  have h3 := (flash_transfer cs b _ d0 _ h2).1
  have h4 := (flash_transfer cs c _ d0 _ h3).1
  simpa using h4

theorem flash_write_enable_dev (cs : Nat) (h : Hw FlashState) (hbusy : h.dev.busy = false)
    (hdpd : h.dev.deepPowerDown = false) :
    (flash_write_enable (flashDevice cs) { _cspin := cs } h).dev =
      { h.dev with wel := true, selected := false, rx := [] } := by
  have h1 := (flash_transfer cs SPI_WRITE_ENABLE _ h.dev [] (flash_assert cs h)).1
  rw [flash_write_enable, flash_deassert cs _ h.dev _ h1]
  simp [flashExecute, hbusy, hdpd, SPI_WRITE_ENABLE]

theorem flash_page_program_dev (cs addr n : Nat) (B : Nat → Nat) (h : Hw FlashState)
    (hn : 0 < n) (hwel : h.dev.wel = true) (hbusy : h.dev.busy = false)
    (hdpd : h.dev.deepPowerDown = false) (hprot : ∀ a, h.dev.protect a = false) :
    (flash_page_program (flashDevice cs) { _cspin := cs } addr B n h).dev =
      { h.dev with
        mem := programPage
          (flashAddress ((addr >>> 16) % 256) ((addr >>> 8) % 256) (addr % 256)) 0
          ((List.range' 0 n).map fun j => B j % 256) h.dev.mem
        busy := true, selected := false, rx := [] } := by
  have h1 := flash_header cs SPI_PAGE_PROGRAM (addr >>> 16) (addr >>> 8) (addr >>> 0) _ h.dev
    (flash_assert cs h)
  have h2 := flash_page_program_loop_dev cs B h.dev n 0 _ _ h1
  rw [flash_page_program, flash_deassert cs _ h.dev _ h2]
  obtain ⟨m, rfl⟩ : ∃ m, n = m + 1 := ⟨n - 1, by omega⟩
  simp [flashExecute, hbusy, hdpd, hwel, hprot, SPI_PAGE_PROGRAM, List.range'_succ]

theorem flash_read_data_bytes_values (cs addr n : Nat) (buf : Nat → Nat) (h : Hw FlashState)
    (hbusy : h.dev.busy = false) (hdpd : h.dev.deepPowerDown = false) (j : Nat) (hj : j < n) :
    (flash_read_data_bytes (flashDevice cs) { _cspin := cs } addr buf n h).1 j =
      h.dev.mem ((flashAddress ((addr >>> 16) % 256) ((addr >>> 8) % 256) (addr % 256) + j)
        % flashCapacity) % 256 := by
  have h1 := flash_header cs SPI_READ_DATA_BYTES (addr >>> 16) (addr >>> 8) (addr >>> 0) _ h.dev
    (flash_assert cs h)
  have h2 := flash_read_loop_values cs ((addr >>> 16) % 256) ((addr >>> 8) % 256) (addr % 256)
    h.dev hbusy hdpd n 0 0 buf _ (by simpa [SPI_READ_DATA_BYTES] using h1) j hj
  simpa [flash_read_data_bytes] using h2

/-- C16: against the device model, for every address `addr` and every buffer
`B` of `n` bytes with `n <= 256` that does not cross a page boundary
(`(addr & 0xFF) + n <= 256`), the sequence write-enable, page-program of `B`
at `addr`, completion of the cycle, read of `n` bytes at `addr` leaves
`buf[0 .. n-1]` equal to `B[0 .. n-1]`, and `buf` unchanged from index `n`
on. The device starts in Standby (not busy, not in deep power-down) with no
protected page. -/
theorem C16_program_then_read_round_trip (cs addr n : Nat) (B buf : Nat → Nat)
    (h : Hw FlashState) (hbusy : h.dev.busy = false) (hdpd : h.dev.deepPowerDown = false)
    (hprot : ∀ a, h.dev.protect a = false) (hn : n ≤ 256)
    (hpage : (addr &&& 0xFF) + n ≤ 256) (hB : ∀ i, i < n → B i < 256) :
    (List.range n).map (programThenRead cs addr n B buf h).1 = (List.range n).map B ∧
    ∀ k, (programThenRead cs addr n B buf h).1 (n + k) = buf (n + k) := by
  constructor
  · apply List.map_congr_left
    intro j hjmem
    have hj : j < n := List.mem_range.mp hjmem
    rw [and_255] at hpage
    have hd1 := flash_write_enable_dev cs h hbusy hdpd
    have hd2 := flash_page_program_dev cs addr n B
      (flash_write_enable (flashDevice cs) { _cspin := cs } h) (by omega)
      (by rw [hd1]) (by rw [hd1]; exact hbusy) (by rw [hd1]; exact hdpd)
      (by intro a; rw [hd1]; exact hprot a)
    rw [programThenRead, flash_read_data_bytes_values cs addr n buf _
      (by simp [hd2, FlashState.complete]) (by simp [hd2, FlashState.complete, hd1, hdpd]) j hj]
    simp only [hd2, FlashState.complete, if_true]
    have ha : flashAddress ((addr >>> 16) % 256) ((addr >>> 8) % 256) (addr % 256) =
        addr % flashCapacity := by
      simp only [flashAddress, flashCapacity, flash_PAGE_COUNT, flash_PAGE_BYTE_SIZE,
        Nat.shiftRight_eq_div_pow]
      omega
    have hcap : flashCapacity = 2097152 := rfl
    rw [ha, hcap]
    have hlt : (addr % 2097152 + j) % 2097152 = addr % 2097152 + j := by omega
    rw [hlt, programPage_spec _ _ 0 _ _ (by simp; omega)]
    have hin : addr % 2097152 + 0 ≤ addr % 2097152 + j ∧
        addr % 2097152 + j < addr % 2097152 + 0 +
          ((List.range' 0 n).map fun j => B j % 256).length := by
      simp; omega
    rw [if_pos hin]
    have hget : ((List.range' 0 n).map fun j => B j % 256).getD
        (addr % 2097152 + j - (addr % 2097152 + 0)) 0 = B j % 256 := by
      have e : addr % 2097152 + j - (addr % 2097152 + 0) = j := by omega
      rw [e, List.getD_eq_getElem?_getD]
      simp [List.getElem?_range', hj]
    rw [hget, Nat.mod_mod, Nat.mod_eq_of_lt (hB j hj)]
  · intro k
    obtain ⟨-, -, -, -, -, -, hkeep⟩ := flash_read_data_bytes_spec (flashDevice cs)
      { _cspin := cs } addr buf n
      { (flash_page_program (flashDevice cs) { _cspin := cs } addr B n
          (flash_write_enable (flashDevice cs) { _cspin := cs } h)) with
        dev := (flash_page_program (flashDevice cs) { _cspin := cs } addr B n
          (flash_write_enable (flashDevice cs) { _cspin := cs } h)).dev.complete }
    exact hkeep (n + k) (Nat.le_add_right _ _)

/-- Witness of C16: four bytes 1, 2, 3, 4 programmed at 0x1234FC, the last
four bytes of a page of an erased device in Standby, are read back. -/
theorem C16_program_then_read_round_trip_witness :
    (List.range 4).map (programThenRead 10 0x1234FC 4 (fun i => i + 1) (fun _ => 7)
      (Hw.boot FlashState.erased)).1 = (List.range 4).map fun i => i + 1 :=
  (C16_program_then_read_round_trip 10 0x1234FC 4 (fun i => i + 1) (fun _ => 7)
    (Hw.boot FlashState.erased) rfl rfl (fun _ => rfl) (by decide) (by decide)
    (by decide)).1
end M25P16
